import Mathlib

/-!
Verification of the jsonapi-openapi-generator against its specification.

The generator (TypeScript) is shallowly embedded below.  The embedding follows
the most complete variant of the source: `src/generator.ts` (the variant with
relationship endpoints), `src/resourceSchemas.ts`, `src/relationshipSchemas.ts`,
`src/init.ts` (the variant with the shared `204Delete` / `204RelationshipUpdate`
/ `409Post` / `409Patch` responses) and `src/types.ts`.  JSON-like values are
modelled by `Val`; the object maps of the document (`components.schemas`,
`components.parameters`, ..., `paths`) are modelled by association lists with
the lodash `_.set` semantics of replace-or-append (`setKey`).  TypeScript
`throw` is modelled by `Except String`.
-/

/-- A JSON-like value, the shape of every schema fragment the generator emits. -/
inductive Val where
  | str : String → Val
  | num : Int → Val
  | bool : Bool → Val
  | arr : List Val → Val
  | obj : List (String × Val) → Val

/-- Key lookup in an object, `obj[k]`. -/
def lookupKey {α : Type} : List (String × α) → String → Option α
  | [], _ => none
  | (k', v') :: m, k => if k' = k then some v' else lookupKey m k

/-- Lodash `_.set` / JS assignment `obj[k] = v`: replace the value of an
existing key in place, or append a new key. -/
def setKey {α : Type} : List (String × α) → String → α → List (String × α)
  | [], k, v => [(k, v)]
  | (k', v') :: m, k, v => if k' = k then (k, v) :: m else (k', v') :: setKey m k v

/-- The keys of an object, in order. -/
def keysOf {α : Type} (m : List (String × α)) : List String := m.map Prod.fst

mutual
/-- All strings appearing as the value of a `$ref` key anywhere in a value. -/
def refsOfVal : Val → List String
  | Val.str _ => []
  | Val.num _ => []
  | Val.bool _ => []
  | Val.arr vs => refsOfList vs
  | Val.obj kvs => refsOfPairs kvs
def refsOfList : List Val → List String
  | [] => []
  | v :: vs => refsOfVal v ++ refsOfList vs
def refsOfPairs : List (String × Val) → List String
  | [] => []
  | (k, v) :: kvs =>
    (match k, v with
     | "$ref", Val.str s => [s]
     | _, _ => []) ++ refsOfVal v ++ refsOfPairs kvs
end

/-- The object `{ $ref: s }`. -/
def refVal (s : String) : Val := Val.obj [("$ref", Val.str s)]

/-- Lodash `_.includes` on a string list. -/
def lodashIncludes (l : List String) (x : String) : Bool := decide (x ∈ l)

/-- The 26 ASCII lowercase letters; used to state hypotheses about resource
names, over which character-level facts are decidable. -/
def lowerChars : List Char := "abcdefghijklmnopqrstuvwxyz".data

/-- A nonempty string of ASCII lowercase letters. -/
def lowerWord (s : String) : Prop := s.data ≠ [] ∧ ∀ c ∈ s.data, c ∈ lowerChars

instance (s : String) : Decidable (lowerWord s) := by
  unfold lowerWord; infer_instance

/-- Flush the word accumulator of `opWordsAux` (the accumulator is reversed). -/
def flushWord : Option (List Char) → List (List Char)
  | some acc => [acc.reverse]
  | none => []

/-- Matcher for the generator's word pattern `(^[a-z]+)|([A-Z][a-z]*)`:
a word is either the leading lowercase run (handled by `opWords`) or an
uppercase letter followed by a maximal lowercase run. -/
def opWordsAux : Option (List Char) → List Char → List (List Char)
  | cur, [] => flushWord cur
  | cur, c :: cs =>
    if c.isUpper then flushWord cur ++ opWordsAux (some [c]) cs
    else
      match cur with
      | some acc =>
        if c.isLower then opWordsAux (some (c :: acc)) cs
        else flushWord (some acc) ++ opWordsAux none cs
      | none => opWordsAux none cs

/-- Lodash `_.words(s, /(^[a-z]+)|([A-Z][a-z]*)/g)` as used by
`getOperationId`. -/
def opWords (s : String) : List String :=
  match s.data with
  | c :: cs =>
    if c.isLower then (opWordsAux (some [c]) cs).map (fun l => String.mk l)
    else (opWordsAux none (c :: cs)).map (fun l => String.mk l)
  | [] => []

/-- Splitter for maximal alphabetic runs (word separators are the non-letter
characters, for the generator always the hyphen inserted by `_.join`). -/
def splitNonAlphaAux : List Char → List Char → List (List Char)
  | acc, [] => if acc.isEmpty then [] else [acc.reverse]
  | acc, c :: cs =>
    if c.isAlpha then splitNonAlphaAux (c :: acc) cs
    else (if acc.isEmpty then [] else [acc.reverse]) ++ splitNonAlphaAux [] cs

def splitNonAlpha (l : List Char) : List (List Char) := splitNonAlphaAux [] l

/-- Splits one alphabetic run at camel-case boundaries, per the lodash word
pattern: a boundary falls before an uppercase letter that follows a lowercase
letter, and before the last letter of an uppercase run that is followed by a
lowercase letter. -/
def camelSplitAux : List Char → List Char → List (List Char)
  | acc, [] => [acc.reverse]
  | acc, c :: cs =>
    let boundary :=
      match acc with
      | p :: _ =>
        (p.isLower && c.isUpper) ||
        (p.isUpper && c.isUpper && (match cs with | n :: _ => n.isLower | [] => false))
      | [] => false
    if boundary then acc.reverse :: camelSplitAux [c] cs
    else camelSplitAux (c :: acc) cs

def camelSegs : List Char → List (List Char)
  | [] => []
  | l => camelSplitAux [] l

/-- The words lodash `_.camelCase` splits its argument into (restricted to the
alphabetic-and-hyphen strings the generator produces). -/
def camelWords (s : String) : List (List Char) :=
  (splitNonAlpha s.data).flatMap camelSegs

/-- Capitalize a camel word: lodash lowercases the word and uppercases its
first character. -/
def capWord (w : List Char) : List Char :=
  match w.map Char.toLower with
  | [] => []
  | c :: cs => c.toUpper :: cs

/-- Lodash `_.camelCase`: first word lowercased, every later word
capitalized, all concatenated. -/
def lodashCamelCase (s : String) : String :=
  match camelWords s with
  | [] => ""
  | w :: ws => String.mk (w.map Char.toLower ++ ws.flatMap capWord)

/-- Lodash `_.capitalize`: lowercase the whole string, uppercase the first
character.  This is `getResourceSchemaPfx` in `src/utils.ts`. -/
def lodashCapitalize (s : String) : String :=
  match s.data with
  | [] => ""
  | c :: cs => String.mk (c.toLower.toUpper :: cs.map Char.toLower)

/-- Lodash `_.join(words, sep)` for the hyphen separator. -/
def joinHyphen : List String → String
  | [] => ""
  | w :: ws => ws.foldl (fun acc w => acc ++ "-" ++ w) w

/-! The configuration data model, from `src/types.ts` (the variant with
`filterParams`, `getAttributes`, `postAttributes`, `patchAttributes`).
The TypeScript sentinel type `'all' | Array<string>` is modelled by
`Option (List String)` with `none` standing for `'all'`.  String-keyed
objects are association lists.  The unused `subResources` field is omitted. -/

structure Relationship where
  relationshipType : String
  type' : String

structure Resource where
  plural : String
  selfLinks : Bool
  paginate : Bool
  compoundDocuments : Bool
  sparseFieldsets : Bool
  operations : List String
  filterParams : List (String × List String)
  getAttributes : Option (List String)
  postAttributes : Option (List String)
  patchAttributes : Option (List String)
  requiredPostAttributes : Option (List String)
  attributes : List (String × Val)
  relationships : List (String × Relationship)

structure Config where
  version : String
  resources : List (String × Resource)
  title : String
  description : String
  githubUrl : String

/-- A default resource mirroring the defaulted configuration. -/
def defaultResource : Resource :=
  { plural := ""
    selfLinks := true
    paginate := false
    compoundDocuments := false
    sparseFieldsets := false
    operations := []
    filterParams := []
    getAttributes := none
    postAttributes := none
    patchAttributes := none
    requiredPostAttributes := none
    attributes := []
    relationships := [] }

/-- The output document: `components` maps plus `paths`
(path → method → operation object). -/
structure Components where
  securitySchemes : List (String × Val)
  parameters : List (String × Val)
  responses : List (String × Val)
  requestBodies : List (String × Val)
  schemas : List (String × Val)

structure OpenApiDoc where
  openapi : String
  info : Val
  externalDocs : Val
  servers : List Val
  security : List Val
  paths : List (String × List (String × Val))
  components : Components

/-- All `$ref` strings emitted anywhere in a document. -/
def refsOfDoc (doc : OpenApiDoc) : List String :=
  refsOfVal doc.info ++ refsOfVal doc.externalDocs ++ refsOfList doc.servers ++
  refsOfList doc.security ++
  doc.paths.flatMap (fun p => refsOfPairs p.2) ++
  refsOfPairs doc.components.securitySchemes ++
  refsOfPairs doc.components.parameters ++
  refsOfPairs doc.components.responses ++
  refsOfPairs doc.components.requestBodies ++
  refsOfPairs doc.components.schemas

/-! Embedding of `src/generator.ts` (most complete variant). -/

def isIdOperation (operation : String) : Bool :=
  lodashIncludes ["getById", "patchById", "deleteById"] operation

def idParamName (resourceName : String) : String := resourceName ++ "Id"

/-- `getOperationMethod`: the match of `/^[a-z]+/`, or a thrown error. -/
def getOperationMethod (operation : String) : Except String String :=
  match operation.data with
  | c :: _ =>
    if c.isLower then Except.ok (String.mk (operation.data.takeWhile Char.isLower))
    else Except.error ("Unexpected operation " ++ operation)
  | [] => Except.error ("Unexpected operation " ++ operation)

/-- `getOperationId`: splits the operation token on the camel-case pattern,
splices in the resource name (the plural, for `get`) as the second word and
re-joins with `_.camelCase`. -/
def getOperationId (operation resourceName : String) (resource : Resource) : String :=
  let resourcePart := if operation = "get" then resource.plural else resourceName
  let words := opWords operation
  let words := words.take 1 ++ [resourcePart] ++ words.drop 1
  lodashCamelCase (joinHyphen words)

/-- `getPath`: collection path for `get`/`post`, id path for the id
operations, thrown error otherwise. -/
def getPath (operation plural : String) : Except String String :=
  if lodashIncludes ["get", "post"] operation then Except.ok ("/" ++ plural)
  else if isIdOperation operation then Except.ok ("/" ++ plural ++ "/{id}")
  else Except.error ("Unexpected operation " ++ operation)

/-- `getResponses`: the response map of a resource operation. -/
def getResponses (operation resourceSchemaPfx : String) : List (String × Val) :=
  let refResponse := fun (refName : String) => refVal ("#/components/responses/" ++ refName)
  let responses :=
    if operation = "deleteById" then [("204", refResponse ("204Delete"))]
    else
      let schemaSuffix :=
        if lodashIncludes ["post", "patchById", "getById"] operation then "Result" else "SetResult"
      let code := if operation = "post" then "201" else "200"
      [(code, Val.obj
        [("description", Val.str ("REPLACEME")),
         ("content", Val.obj
           [("application/json", Val.obj
             [("schema", refVal ("#/components/schemas/" ++ resourceSchemaPfx ++ schemaSuffix))])])])]
  let responses :=
    if isIdOperation operation then responses ++ [("404", refResponse ("404"))] else responses
  let responses :=
    if operation = "post" then responses ++ [("409", refResponse ("409Post"))]
    else if operation = "patchById" then responses ++ [("409", refResponse ("409Patch"))]
    else responses
  responses ++ [("500", refResponse ("500"))]

/-- `getParameters`: pagination parameter refs for a paginated `get`, the id
parameter ref for id operations. -/
def getParameters (operation resourceName : String) (paginate : Bool) : List Val :=
  (if operation = "get" && paginate then
    [refVal ("#/components/parameters/pageNumber"), refVal ("#/components/parameters/pageSize")]
   else []) ++
  (if isIdOperation operation then
    [refVal ("#/components/parameters/" ++ idParamName resourceName)]
   else [])

/-! Embedding of `src/resourceSchemas.ts`. -/

/-- `getResourceSchema` (the two-argument variant used by the generator).
The `if (resource.relationships)` guard in the source is always true for a
defaulted configuration (an empty object is truthy), so the relationships
property is always present. -/
def getResourceSchema (resource : Resource) (resourceName : String) : Val :=
  let getRelationship := fun (relationship : Relationship) =>
    let schemaName := lodashCapitalize resourceName ++ lodashCapitalize relationship.type'
    let schemaName :=
      if relationship.relationshipType = "toOne" then schemaName ++ "RelationshipResult"
      else schemaName ++ "RelationshipSetResult"
    refVal ("#/components/schemas/" ++ schemaName)
  let props :=
    [("id", Val.obj
       [("type", Val.str ("string")),
        ("description", Val.str ("Unique ID of " ++ resourceName ++ " resource"))]),
     ("type", Val.obj
       [("type", Val.str ("string")), ("enum", Val.arr [Val.str resourceName])]),
     ("attributes", Val.obj
       [("type", Val.str ("object")), ("properties", Val.obj resource.attributes)])]
  let props := props ++
    [("relationships", Val.obj
      [("type", Val.str ("object")),
       ("properties", Val.obj (resource.relationships.map (fun p => (p.1, getRelationship p.2))))])]
  let props :=
    if resource.selfLinks then props ++ [("links", refVal ("#/components/schemas/SelfLink"))]
    else props
  Val.obj [("type", Val.str ("object")), ("properties", Val.obj props)]

def getResultSchema (resourceSchemaName : String) : Val :=
  Val.obj
    [("type", Val.str ("object")),
     ("properties", Val.obj
       [("links", refVal ("#/components/schemas/SelfLink")),
        ("data", refVal ("#/components/schemas/" ++ resourceSchemaName))])]

def getSetResultSchema (resource : Resource) (resourceSchemaName : String) : Val :=
  let paginateProps :=
    [("links", Val.obj
       [("type", Val.str ("object")),
        ("allOf", Val.arr
          [refVal ("#/components/schemas/SelfLink"),
           refVal ("#/components/schemas/PaginationLinks")])]),
     ("meta", refVal ("#/components/schemas/Meta"))]
  let noPaginateProps := [("links", refVal ("#/components/schemas/SelfLink"))]
  Val.obj
    [("type", Val.str ("object")),
     ("properties", Val.obj
       ((if resource.paginate then paginateProps else noPaginateProps) ++
        [("data", Val.obj
          [("type", Val.str ("array")),
           ("items", refVal ("#/components/schemas/" ++ resourceSchemaName))])]))]

/-- `getRequestBodySchema`; the `default` switch branch is the thrown
`Invalid bodyType` error. -/
def getRequestBodySchema (resource : Resource) (resourceSchemaName bodyType : String) :
    Except String Val := do
  let refPropertiesPfx := "#/components/schemas/" ++ resourceSchemaName ++ "/properties"
  let attributeProperties := resource.attributes.map
    (fun p => (p.1, refVal (refPropertiesPfx ++ "/attributes/properties/" ++ p.1)))
  let allPropsRequired := resource.requiredPostAttributes.isNone
  let allProperties := keysOf resource.attributes
  let requiredProperties :=
    if allPropsRequired then allProperties else resource.requiredPostAttributes.getD []
  let (attributes, required) ←
    if bodyType = "post" then
      Except.ok
        ([("attributes", Val.obj
           [("type", Val.str ("object")),
            ("properties", Val.obj attributeProperties),
            ("required", Val.arr (requiredProperties.map Val.str)),
            ("additionalProperties", Val.bool false)])],
         [("required", Val.arr [Val.str ("type"), Val.str ("attributes")])])
    else if bodyType = "patch" then
      Except.ok
        ([("attributes", Val.obj
           [("type", Val.str ("object")),
            ("properties", Val.obj attributeProperties)])],
         [("required", Val.arr [Val.str ("type"), Val.str ("id")])])
    else Except.error ("Invalid bodyType " ++ bodyType)
  Except.ok (Val.obj
    ([("type", Val.str ("object")),
      ("properties", Val.obj
        [("data", Val.obj
          ([("type", Val.str ("object")),
            ("properties", Val.obj
              (("type", refVal (refPropertiesPfx ++ "/type")) :: attributes))] ++ required))]),
      ("required", Val.arr [Val.str ("data")]),
      ("additionalProperties", Val.bool false)]))

/-! Embedding of `src/relationshipSchemas.ts`. -/

def getRelationshipSchema (relationship : Relationship) : Val :=
  let relationshipSchemaName := lodashCapitalize relationship.type'
  Val.obj
    [("type", Val.str ("object")),
     ("properties", Val.obj
       [("type", refVal
          ("#/components/schemas/" ++ relationshipSchemaName ++ "Resource/properties/type")),
        ("id", refVal
          ("#/components/schemas/" ++ relationshipSchemaName ++ "Resource/properties/id"))])]

def relationshipLinksVal (resource : Resource) (relationshipName baseUrl : String) : Val :=
  Val.obj
    [("type", Val.str ("object")),
     ("properties", Val.obj
       [("self", Val.obj
          [("type", Val.str ("string")),
           ("example", Val.str
             (baseUrl ++ "/" ++ resource.plural ++ "/1/relationships/" ++ relationshipName))]),
        ("related", Val.obj
          [("type", Val.str ("string")),
           ("example", Val.str
             (baseUrl ++ "/" ++ resource.plural ++ "/1/" ++ relationshipName))])])]

def getRelationshipResultSchema (resource : Resource) (relationshipName baseUrl relationshipKey : String) : Val :=
  Val.obj
    [("type", Val.str ("object")),
     ("properties", Val.obj
       [("data", Val.obj
          [("type", Val.str ("object")),
           ("allOf", Val.arr
             [Val.obj [("type", Val.str ("object")), ("nullable", Val.bool true)],
              refVal ("#/components/schemas/" ++ relationshipKey)])]),
        ("links", relationshipLinksVal resource relationshipName baseUrl)])]

def getRelationshipSetResultSchema (resource : Resource) (relationshipName baseUrl relationshipKey : String) : Val :=
  Val.obj
    [("type", Val.str ("object")),
     ("properties", Val.obj
       [("data", Val.obj
          [("type", Val.str ("array")),
           ("items", refVal ("#/components/schemas/" ++ relationshipKey))]),
        ("links", relationshipLinksVal resource relationshipName baseUrl)])]

/-! Embedding of `src/init.ts` (the variant with the shared `204Delete`,
`204RelationshipUpdate`, `409Post` and `409Patch` responses). -/

def paginationSchemas : List (String × Val) :=
  [("Meta", Val.obj
     [("properties", Val.obj
       [("totalResults", Val.obj
          [("type", Val.str ("integer")),
           ("description", Val.str ("Total number of results")),
           ("example", Val.num 10)]),
        ("totalPages", Val.obj
          [("type", Val.str ("integer")),
           ("description", Val.str ("Total number of pages")),
           ("example", Val.num 10)]),
        ("currentPageNumber", Val.obj
          [("type", Val.str ("integer")),
           ("description", Val.str ("Page number of the returned results")),
           ("example", Val.num 1)]),
        ("currentPageSize", Val.obj
          [("type", Val.str ("integer")),
           ("description", Val.str ("Number of results per page")),
           ("example", Val.num 25)])])]),
   ("PaginationLinks", Val.obj
     [("properties", Val.obj
       [("first", Val.obj
          [("type", Val.str ("string")), ("format", Val.str ("uri")),
           ("description", Val.str ("The first page of data"))]),
        ("last", Val.obj
          [("type", Val.str ("string")), ("format", Val.str ("uri")),
           ("description", Val.str ("The last page of data"))]),
        ("prev", Val.obj
          [("type", Val.str ("string")), ("format", Val.str ("uri")),
           ("description", Val.str ("The previous page of data"))]),
        ("next", Val.obj
          [("type", Val.str ("string")), ("format", Val.str ("uri")),
           ("description", Val.str ("The next page of data"))])])])]

def paginationParameters : List (String × Val) :=
  [("pageNumber", Val.obj
     [("name", Val.str ("page[number]")), ("in", Val.str ("query")),
      ("required", Val.bool false),
      ("description", Val.str ("Page number of results")),
      ("schema", Val.obj
        [("type", Val.str ("integer")), ("minimum", Val.num 1), ("default", Val.num 1)])]),
   ("pageSize", Val.obj
     [("name", Val.str ("page[size]")), ("in", Val.str ("query")),
      ("required", Val.bool false),
      ("description", Val.str ("Number of results to return")),
      ("schema", Val.obj
        [("type", Val.str ("integer")), ("minimum", Val.num 1),
         ("maximum", Val.num 500), ("default", Val.num 25)])])]

/-- The shared error content block, `{ content: { application/json: { schema:
{ $ref: ErrorResult } } } }`. -/
def errorContent : List (String × Val) :=
  [("content", Val.obj
    [("application/json", Val.obj
      [("schema", refVal ("#/components/schemas/ErrorResult"))])])]

def errorObjectSchema : Val :=
  Val.obj
    [("type", Val.str ("object")),
     ("properties", Val.obj
       [("status", Val.obj
          [("type", Val.str ("string")),
           ("description", Val.str ("HTTP status code")),
           ("example", Val.str ("123"))]),
        ("title", Val.obj
          [("type", Val.str ("string")),
           ("description", Val.str ("A short, user readable summary of the error")),
           ("example", Val.str ("Not Found"))]),
        ("code", Val.obj
          [("type", Val.str ("string")),
           ("description", Val.str ("An application-specific error code")),
           ("example", Val.str ("1234"))]),
        ("detail", Val.obj
          [("type", Val.str ("string")),
           ("description", Val.str
             ("A long description of the error that may contain instance-specific details"))]),
        ("links", Val.obj
          [("type", Val.str ("object")),
           ("properties", Val.obj
             [("about", Val.obj
               [("type", Val.str ("string")), ("format", Val.str ("uri")),
                ("description", Val.str ("A link to further information about the error")),
                ("example", Val.str
                  ("https://developer.oregonstate.edu/documentation/error-reference#1234"))])])])])]

def initResponses : List (String × Val) :=
  [("204Delete", Val.obj
     [("description", Val.str ("The resource was successfully deleted"))]),
   ("204RelationshipUpdate", Val.obj
     [("description", Val.str ("The relationship(s) already match the requested state"))]),
   ("400", Val.obj (("description", Val.str ("Bad request")) :: errorContent)),
   ("404", Val.obj (("description", Val.str ("Resource not found")) :: errorContent)),
   ("409Post", Val.obj
     (("description", Val.str
       ("The request body resource object\x27s type was invalid or, if a client-generated ID was used, a resource already exists with this id")) :: errorContent)),
   ("409Patch", Val.obj
     (("description", Val.str
       ("The request body resource object had an invalid type, invalid ID, or violated a uniqueness constraint")) :: errorContent)),
   ("500", Val.obj (("description", Val.str ("Internal server error")) :: errorContent))]

def selfLinkSchema : Val :=
  Val.obj
    [("type", Val.str ("object")),
     ("properties", Val.obj
       [("self", Val.obj
          [("type", Val.str ("string")), ("format", Val.str ("uri")),
           ("description", Val.str ("Self-link of current resource"))])])]

def errorResultSchema : Val :=
  Val.obj
    [("type", Val.str ("object")),
     ("properties", Val.obj
       [("errors", Val.obj
          [("type", Val.str ("array")),
           ("items", refVal ("#/components/schemas/ErrorObject"))])])]

def securitySchemesVal : List (String × Val) :=
  [("OAuth2", Val.obj
     [("type", Val.str ("oauth2")),
      ("flows", Val.obj
        [("clientCredentials", Val.obj
          [("tokenUrl", Val.str ("https://api.oregonstate.edu/oauth2/token")),
           ("scopes", Val.obj
             [("full", Val.str ("Full access to the API"))])])])])]

/-- `init`: the invariant document skeleton; the pagination schemas and
parameters are included exactly when some resource paginates. -/
def init (config : Config) : OpenApiDoc :=
  let containsPaginated := config.resources.any (fun p => p.2.paginate)
  let extraSchemas := if containsPaginated then paginationSchemas else []
  let extraParameters := if containsPaginated then paginationParameters else []
  { openapi := "3.0.0"
    info := Val.obj
      [("title", Val.str config.title),
       ("description", Val.str ("REPLACEME")),
       ("version", Val.str config.version),
       ("license", Val.obj
         [("name", Val.str ("GNU Affero General Public License Version 3")),
          ("url", Val.str ("http://www.gnu.org/licenses/agpl-3.0.en.html"))]),
       ("contact", Val.obj
         [("name", Val.str ("IS Data Architecture Team")),
          ("url", Val.str ("https://is.oregonstate.edu/data-architecture")),
          ("email", Val.str ("isdataarchitecture@oregonstate.edu"))])]
    externalDocs := Val.obj
      [("description", Val.str ("GitHub Repository")),
       ("url", Val.str config.githubUrl)]
    servers := [Val.obj [("url", Val.str ("https://api.oregonstate.edu/" ++ config.version))]]
    security := [Val.obj [("OAuth2", Val.arr [Val.str ("full")])]]
    paths := []
    components :=
      { securitySchemes := securitySchemesVal
        parameters := extraParameters
        responses := initResponses
        requestBodies := []
        schemas :=
          ("SelfLink", selfLinkSchema) :: extraSchemas ++
          [("ErrorObject", errorObjectSchema), ("ErrorResult", errorResultSchema)] } }

/-- `_.get(openapi, 'servers[0].url')`. -/
def serverUrl (doc : OpenApiDoc) : String :=
  match doc.servers with
  | Val.obj kvs :: _ =>
    match lookupKey kvs ("url") with
    | some (Val.str u) => u
    | _ => ""
  | _ => ""

/-- One resource of `buildResources`: the Resource/Result/SetResult schemas
are inserted unconditionally, the post/patch body schemas only when the
corresponding operation is declared. -/
def buildResourcesStep (doc : OpenApiDoc) (entry : String × Resource) :
    Except String OpenApiDoc := do
  let resourceName := entry.1
  let r := entry.2
  let resourceSchemaPfx := lodashCapitalize resourceName
  let resourceSchemaName := resourceSchemaPfx ++ "Resource"
  let schemas := setKey doc.components.schemas resourceSchemaName (getResourceSchema r resourceName)
  let schemas := setKey schemas (resourceSchemaPfx ++ "Result") (getResultSchema resourceSchemaName)
  let schemas := setKey schemas (resourceSchemaPfx ++ "SetResult") (getSetResultSchema r resourceSchemaName)
  let schemas ←
    if lodashIncludes r.operations ("post") then do
      let postBodySchema ← getRequestBodySchema r resourceSchemaName ("post")
      Except.ok (setKey schemas (resourceSchemaPfx ++ "PostBody") postBodySchema)
    else Except.ok schemas
  let schemas ←
    if lodashIncludes r.operations ("patchById") then do
      let patchBodySchema ← getRequestBodySchema r resourceSchemaName ("patch")
      Except.ok (setKey schemas (resourceSchemaPfx ++ "PatchBody") patchBodySchema)
    else Except.ok schemas
  Except.ok { doc with components := { doc.components with schemas := schemas } }

def buildResources (config : Config) (doc : OpenApiDoc) : Except String OpenApiDoc :=
  config.resources.foldlM buildResourcesStep doc

/-- The id path parameter component (note its `name` is the literal `id`). -/
def idPathParameterVal : Val :=
  Val.obj
    [("name", Val.str ("id")), ("in", Val.str ("path")),
     ("description", Val.str ("REPLACEME")), ("required", Val.bool true),
     ("schema", Val.obj [("type", Val.str ("string"))])]

/-- One operation of `buildEndpoints`: derives method, path, parameters,
request body and responses, and writes the operation object at
`paths[path][method]`. -/
def buildOperationStep (resourceName : String) (r : Resource) (resourceSchemaPfx : String)
    (paths : List (String × List (String × Val))) (operation : String) :
    Except String (List (String × List (String × Val))) := do
  let method ← getOperationMethod operation
  let path ← getPath operation r.plural
  let parameters := getParameters operation resourceName r.paginate
  let parametersSchema :=
    if parameters.isEmpty then [] else [("parameters", Val.arr parameters)]
  let requestBodySchema :=
    if lodashIncludes ["post", "patch"] method then
      [("requestBody", Val.obj
        [("required", Val.bool true),
         ("content", Val.obj
           [("application/json", Val.obj
             [("schema", refVal
               ("#/components/schemas/" ++ resourceSchemaPfx ++ lodashCapitalize method ++ "Body"))])])])]
    else []
  let operationObject := Val.obj
    ([("summary", Val.str ("REPLACEME")),
      ("tags", Val.arr [Val.str r.plural]),
      ("description", Val.str ("REPLACEME")),
      ("operationId", Val.str (getOperationId operation resourceName r))] ++
     parametersSchema ++ requestBodySchema ++
     [("responses", Val.obj (getResponses operation resourceSchemaPfx))])
  let pathItem := (lookupKey paths path).getD []
  Except.ok (setKey paths path (setKey pathItem method operationObject))

/-- The method list of a relationship sub-endpoint. -/
def relationshipMethods (isToMany : Bool) : List String :=
  ["get", "patch"] ++ (if isToMany then ["post", "delete"] else [])

/-- One method of a relationship sub-endpoint. -/
def relationshipOperationObject (config : Config) (resourceName : String) (r : Resource)
    (relationship : Relationship) (relationshipSchemaName method : String) : Val :=
  let isUpdate := lodashIncludes ["patch", "post", "delete"] method
  Val.obj
    ([("description", Val.str ("REPLACEME")),
      ("tags", Val.arr
        [Val.str r.plural,
         Val.str ((lookupKey config.resources relationship.type').map Resource.plural
           |>.getD ("<plural of " ++ relationship.type' ++ ">"))]),
      ("parameters", Val.arr
        [refVal ("#/components/parameters/" ++ idParamName resourceName)])] ++
     (if isUpdate then
       [("requestBody", refVal ("#/components/requestBodies/" ++ relationshipSchemaName))]
      else []) ++
     [("responses", Val.obj
       ([("200", refVal ("#/components/responses/" ++ relationshipSchemaName))] ++
        (if isUpdate then
          [("204", refVal ("#/components/responses/204RelationshipUpdate"))]
         else []) ++
        [("404", refVal ("#/components/responses/404")),
         ("500", refVal ("#/components/responses/500"))]))])

/-- One relationship of `buildEndpoints`: inserts the linkage schema (if
absent), the result schema, the shared response and request body, and the
relationship path item with its get/patch(/post/delete) methods. -/
def buildRelationshipStep (config : Config) (resourceName : String) (r : Resource)
    (resourceSchemaPfx baseUrl : String) (doc : OpenApiDoc) (entry : String × Relationship) :
    Except String OpenApiDoc := do
  let relationshipName := entry.1
  let relationship := entry.2
  let basePath ← getPath ("getById") r.plural
  let path := basePath ++ "/relationships/" ++ relationshipName
  let relationshipSchemaPfx :=
    resourceSchemaPfx ++ lodashCapitalize relationship.type' ++ "Relationship"
  let isToMany := relationship.relationshipType = "toMany"
  let relationshipSchemaName :=
    if isToMany then relationshipSchemaPfx ++ "Set" else relationshipSchemaPfx
  let relationshipResponseSchemaName := relationshipSchemaName ++ "Result"
  let relationshipSchema := getRelationshipSchema relationship
  let schemas :=
    if (lookupKey doc.components.schemas relationshipSchemaPfx).isSome then
      doc.components.schemas
    else setKey doc.components.schemas relationshipSchemaPfx relationshipSchema
  let responseSchema :=
    (if isToMany then getRelationshipSetResultSchema else getRelationshipResultSchema)
      r relationshipName baseUrl relationshipSchemaPfx
  let schemas := setKey schemas relationshipResponseSchemaName responseSchema
  let responses := setKey doc.components.responses relationshipSchemaName
    (Val.obj
      [("description", Val.str ("README")),
       ("content", Val.obj
         [("application/json", Val.obj
           [("schema", refVal
             ("#/components/schemas/" ++ relationshipResponseSchemaName))])])])
  let relationshipSchemaRef := refVal ("#/components/schemas/" ++ relationshipSchemaPfx)
  let arrayData := Val.obj [("type", Val.str ("array")), ("items", relationshipSchemaRef)]
  let singleData := Val.obj
    [("type", Val.str ("object")),
     ("allOf", Val.arr [Val.obj [("nullable", Val.bool true)], relationshipSchemaRef])]
  let relationshipRequestBody := Val.obj
    [("content", Val.obj
      [("application/json", Val.obj
        [("schema", Val.obj
          [("type", Val.str ("object")),
           ("required", Val.arr [Val.str ("data")]),
           ("properties", Val.obj
             [("data", if isToMany then arrayData else singleData)])])])])]
  let requestBodies := setKey doc.components.requestBodies relationshipSchemaName relationshipRequestBody
  let pathsObject := (relationshipMethods isToMany).foldl
    (fun result method => setKey result method
      (relationshipOperationObject config resourceName r relationship relationshipSchemaName method))
    []
  Except.ok
    { doc with
      components :=
        { doc.components with
          schemas := schemas, responses := responses, requestBodies := requestBodies }
      paths := setKey doc.paths path pathsObject }

/-- One resource of `buildEndpoints`: declares the id path parameter when at
least one operation is id-scoped, then processes the operations, then the
relationships. -/
def buildEndpointsResourceStep (config : Config) (baseUrl : String) (doc : OpenApiDoc)
    (entry : String × Resource) : Except String OpenApiDoc := do
  let resourceName := entry.1
  let r := entry.2
  let resourceSchemaPfx := lodashCapitalize resourceName
  let doc :=
    if r.operations.any (fun operation => isIdOperation operation) then
      { doc with components :=
        { doc.components with
          parameters := setKey doc.components.parameters (idParamName resourceName) idPathParameterVal } }
    else doc
  let paths ← r.operations.foldlM (buildOperationStep resourceName r resourceSchemaPfx) doc.paths
  let doc := { doc with paths := paths }
  r.relationships.foldlM (buildRelationshipStep config resourceName r resourceSchemaPfx baseUrl) doc

def buildEndpoints (config : Config) (baseUrl : String) (doc : OpenApiDoc) :
    Except String OpenApiDoc :=
  config.resources.foldlM (buildEndpointsResourceStep config baseUrl) doc

/-- `main`, less the I/O: init, read the base URL off the document, build the
resource schemas, build the endpoints. -/
def generate (config : Config) : Except String OpenApiDoc := do
  let openapi := init config
  let baseUrl := serverUrl openapi
  let openapi ← buildResources config openapi
  buildEndpoints config baseUrl openapi

/-! Embedding of the per-operation resource schema builder (the
`resourceSchemas.ts` variant whose `getResourceSchema` takes the operation
`get` / `post` / `patch` and projects the attribute map onto the attribute
subset allowed for that operation). -/

namespace OperationSchemas

/-- The allowed-attribute subset for the operation: the lookup
`{get, post, patch}[operation]`.  An unknown operation yields `undefined`, on
which nothing passes the `_.includes` filter; that is modelled by `some []`. -/
def allowedAttributesOf (resource : Resource) (operation : String) : Option (List String) :=
  if operation = "get" then resource.getAttributes
  else if operation = "post" then resource.postAttributes
  else if operation = "patch" then resource.patchAttributes
  else some []

/-- The attribute projection of the restricted branch: `_.pickBy` the
attribute map on membership in the allowed list, then map every surviving
attribute to a ref into the shared Attributes schema. -/
def projectedAttributeProperties (resource : Resource) (resourceSchemaPfx : String)
    (allowed : List String) : List (String × Val) :=
  (resource.attributes.filter (fun p => lodashIncludes allowed p.1)).map
    (fun p => (p.1, refVal
      ("#/components/schemas/" ++ resourceSchemaPfx ++ "Attributes/properties/" ++ p.1)))

/-- `getResourceSchema(operation, resource, resourceName)` of the
per-operation variant. -/
def getResourceSchema (operation : String) (resource : Resource) (resourceName : String) : Val :=
  let resourceSchemaPfx := lodashCapitalize resourceName
  let allowedAttributes := allowedAttributesOf resource operation
  let getRelationship := fun (relationship : Relationship) =>
    let schemaName := lodashCapitalize resourceName ++ lodashCapitalize relationship.type'
    let schemaName :=
      if relationship.relationshipType = "toOne" then schemaName ++ "RelationshipResult"
      else schemaName ++ "RelationshipSetResult"
    refVal ("#/components/schemas/" ++ schemaName)
  let idProp := [("id", refVal ("#/components/schemas/" ++ resourceSchemaPfx ++ "Id"))]
  let topLevelRequired :=
    if operation = "post" then [("required", Val.arr [Val.str ("type"), Val.str ("attributes")])]
    else if operation = "patch" then [("required", Val.arr [Val.str ("type"), Val.str ("id")])]
    else []
  let requiredAttributes :=
    if operation = "post" then
      [("required",
        match (if resource.requiredPostAttributes.isNone then resource.postAttributes
               else resource.requiredPostAttributes) with
        | none => Val.str ("all")
        | some l => Val.arr (l.map Val.str))]
    else []
  let attributes :=
    match allowedAttributes with
    | none => refVal ("#/components/schemas/" ++ resourceSchemaPfx ++ "Attributes")
    | some allowed =>
      Val.obj
        (("type", Val.str ("object")) :: requiredAttributes ++
         [("properties", Val.obj (projectedAttributeProperties resource resourceSchemaPfx allowed))])
  let props :=
    [("type", refVal ("#/components/schemas/" ++ resourceSchemaPfx ++ "Type"))] ++
    (if operation = "post" then [] else idProp) ++
    [("attributes", attributes)]
  let props := props ++
    [("relationships", Val.obj
      [("type", Val.str ("object")),
       ("properties", Val.obj (resource.relationships.map (fun p => (p.1, getRelationship p.2))))])]
  let props :=
    if operation = "get" && resource.selfLinks then
      props ++ [("links", refVal ("#/components/schemas/SelfLink"))]
    else props
  Val.obj (("type", Val.str ("object")) :: topLevelRequired ++ [("properties", Val.obj props)])

/-- The keys of the attributes property map of a produced resource schema. -/
def attributesPropertyKeys (v : Val) : List String :=
  match v with
  | Val.obj kvs =>
    match lookupKey kvs ("properties") with
    | some (Val.obj props) =>
      match lookupKey props ("attributes") with
      | some (Val.obj attrs) =>
        match lookupKey attrs ("properties") with
        | some (Val.obj attrProps) => keysOf attrProps
        | _ => []
      | _ => []
    | _ => []
  | _ => []

end OperationSchemas

/-! Filter parameters. -/

namespace SpecModel

/-- Modelled from the spec: the filter-parameter synthesis of
`parameters(operation, resourceName, resource)` (spec section 4.4) is absent
from the source tree — only the `FilterParamType` declaration in `types.ts`
and the example configuration mention `filterParams` — so it is modelled from
the spec words: for `get`, one query parameter per `(attributeName, operator)`
pair in `filterParams`, named `filter[<attributeName>]` for the `eq` operator
and `filter[<attributeName>][<operator>]` otherwise, with the parameter
schema type and format copied from the matching attribute definition when
present. -/
def filterParamName (attributeName operator : String) : String :=
  if operator = "eq" then "filter[" ++ attributeName ++ "]"
  else "filter[" ++ attributeName ++ "][" ++ operator ++ "]"

/-- Modelled from the spec: the schema of a filter parameter — the `type` and
`format` of the matching attribute definition, when present. -/
def filterParamSchema (resource : Resource) (attributeName : String) : Val :=
  match lookupKey resource.attributes attributeName with
  | some (Val.obj kvs) =>
    Val.obj
      ((match lookupKey kvs ("type") with
        | some t => [("type", t)]
        | none => []) ++
       (match lookupKey kvs ("format") with
        | some f => [("format", f)]
        | none => []))
  | _ => Val.obj []

/-- Modelled from the spec: one query parameter for one
`(attributeName, operator)` pair. -/
def filterParameter (resource : Resource) (attributeName operator : String) : Val :=
  Val.obj
    [("name", Val.str (filterParamName attributeName operator)),
     ("in", Val.str ("query")),
     ("schema", filterParamSchema resource attributeName)]

/-- Modelled from the spec: all filter parameters of a resource, one per
`(attributeName, operator)` pair of `filterParams`. -/
def filterParameters (resource : Resource) : List Val :=
  resource.filterParams.flatMap (fun p =>
    p.2.map (fun operator => filterParameter resource p.1 operator))

/-- Modelled from the spec: the parameter list of the `get` operation —
the shared pagination refs iff `paginate`, plus the filter parameters. -/
def specGetParameters (resource : Resource) : List Val :=
  (if resource.paginate then
    [refVal ("#/components/parameters/pageNumber"), refVal ("#/components/parameters/pageSize")]
   else []) ++
  filterParameters resource

end SpecModel

/-! Concrete configurations used as test inputs. -/

/-- A `pet` resource with no operations and one toMany `siblings`
relationship of type `pet`. -/
def petRelResource : Resource :=
  { defaultResource with
    plural := "pets"
    relationships := [("siblings", { relationshipType := "toMany", type' := "pet" })] }

def cfgPetRel : Config :=
  { version := "v1"
    resources := [("pet", petRelResource)]
    title := "REPLACEME"
    description := "REPLACEME"
    githubUrl := "REPLACEME" }

/-- A paginated `pet` resource with a `get` operation. -/
def petPaginatedResource : Resource :=
  { defaultResource with
    plural := "pets"
    paginate := true
    operations := ["get"] }

def cfgPetPaginated : Config :=
  { version := "v1"
    resources := [("pet", petPaginatedResource)]
    title := "REPLACEME"
    description := "REPLACEME"
    githubUrl := "REPLACEME" }

/-- An `owner` resource; `plural` is `owners`. -/
def ownerResource : Resource :=
  { defaultResource with
    plural := "owners"
    operations := ["get", "getById", "patchById"] }

/-- A resource whose `getAttributes` list names `ghost`, an attribute that
does not exist in the attributes map. -/
def ghostAttrResource : Resource :=
  { defaultResource with
    plural := "pets"
    attributes := [("name", Val.obj [("type", Val.str ("string"))])]
    getAttributes := some ["name", "ghost"] }

/-- A resource with filter parameters on a `name` attribute. -/
def filterResource : Resource :=
  { defaultResource with
    plural := "pets"
    operations := ["get"]
    attributes := [("name", Val.obj [("type", Val.str ("string"))])]
    filterParams := [("name", ["eq", "fuzzy"])] }

/-- The last character of a string, used to separate the key namespaces the
generator writes into from the fixed keys of the document skeleton. -/
def lastChar (s : String) : Option Char := s.data.getLast?

/-- The document generated from `cfgPetRel`. -/
def docPetRel : OpenApiDoc :=
  match generate cfgPetRel with
  | Except.ok d => d
  | Except.error _ => init cfgPetRel

/-- The document generated from `cfgPetPaginated`. -/
def docPetPaginated : OpenApiDoc :=
  match generate cfgPetPaginated with
  | Except.ok d => d
  | Except.error _ => init cfgPetPaginated

/-! Association-list lemmas. -/

theorem lookupKey_setKey_self {α : Type} (m : List (String × α)) (k : String) (v : α) :
    lookupKey (setKey m k v) k = some v := by
  induction m with
  | nil => simp [setKey, lookupKey]
  | cons p m ih =>
    by_cases h : p.1 = k
    · simp [setKey, h, lookupKey]
    · simp [setKey, h, lookupKey, ih]

theorem lookupKey_setKey_ne {α : Type} (m : List (String × α)) (k' k : String) (v : α)
    (h : k' ≠ k) : lookupKey (setKey m k' v) k = lookupKey m k := by
  induction m with
  | nil => simp [setKey, lookupKey, h]
  | cons p m ih =>
    by_cases hp : p.1 = k'
    · simp [setKey, hp, lookupKey, h]
    · simp [setKey, hp, lookupKey, ih]

theorem keysOf_setKey {α : Type} (m : List (String × α)) (k : String) (v : α) :
    keysOf (setKey m k v) = if k ∈ keysOf m then keysOf m else keysOf m ++ [k] := by
  induction m with
  | nil => simp [setKey, keysOf]
  | cons p m ih =>
    by_cases h : p.1 = k
    · simp [setKey, h, keysOf]
    · have h' : ¬ k = p.1 := fun e => h e.symm
      simp only [setKey, h, if_false, keysOf, List.map_cons] at ih ⊢
      rw [ih]
      by_cases hm : k ∈ List.map Prod.fst m
      · simp [hm, h']
      · simp [hm, h']

theorem mem_keysOf_setKey_self {α : Type} (m : List (String × α)) (k : String) (v : α) :
    k ∈ keysOf (setKey m k v) := by
  rw [keysOf_setKey]
  by_cases h : k ∈ keysOf m <;> simp [h]

theorem mem_keysOf_setKey_of_mem {α : Type} (m : List (String × α)) (k' k : String) (v : α)
    (h : k ∈ keysOf m) : k ∈ keysOf (setKey m k' v) := by
  rw [keysOf_setKey]
  by_cases h' : k' ∈ keysOf m <;> simp [h', h]

theorem count_keysOf_setKey_ne {α : Type} (m : List (String × α)) (k' k : String) (v : α)
    (h : k ≠ k') : (keysOf (setKey m k' v)).count k = (keysOf m).count k := by
  rw [keysOf_setKey]
  by_cases h' : k' ∈ keysOf m
  · simp [h']
  · simp [h', List.count_append, List.count_singleton, h]

/-! Last-character lemmas. -/

theorem lastChar_append (s t : String) (h : t.data ≠ []) :
    lastChar (s ++ t) = lastChar t := by
  unfold lastChar
  rw [String.data_append]
  exact List.getLast?_append_of_ne_nil _ h

theorem ne_of_lastChar_ne {s t : String} (h : lastChar s ≠ lastChar t) : s ≠ t :=
  fun e => h (by rw [e])

/-! Except / foldlM lemmas. -/

theorem except_bind_ok {α β : Type} (x : α) (f : α → Except String β) :
    (Except.ok x >>= f) = f x := rfl

theorem except_bind_error {α β : Type} (e : String) (f : α → Except String β) :
    ((Except.error e : Except String α) >>= f) = Except.error e := rfl

theorem foldlM_preserve {α β : Type} {f : β → α → Except String β} {P : β → Prop}
    (hf : ∀ b a b', f b a = Except.ok b' → P b → P b') :
    ∀ (l : List α) (b b' : β), l.foldlM f b = Except.ok b' → P b → P b' := by
  intro l
  induction l with
  | nil =>
    intro b b' h hb
    simp only [List.foldlM, pure, Except.pure, Except.ok.injEq] at h
    exact h ▸ hb
  | cons a l ih =>
    intro b b' h hb
    rw [List.foldlM_cons] at h
    cases ha : f b a with
    | error e => rw [ha, except_bind_error] at h; exact absurd h (by simp)
    | ok b₁ =>
      rw [ha, except_bind_ok] at h
      exact ih b₁ b' h (hf b a b₁ ha hb)

theorem foldlM_ok_cons {α β : Type} (f : β → α → Except String β) (b b' : β) (a : α) (l : List α)
    (h : (a :: l).foldlM f b = Except.ok b') :
    ∃ b₁, f b a = Except.ok b₁ ∧ l.foldlM f b₁ = Except.ok b' := by
  rw [List.foldlM_cons] at h
  cases ha : f b a with
  | error e => rw [ha, except_bind_error] at h; exact absurd h (by simp)
  | ok b₁ => rw [ha, except_bind_ok] at h; exact ⟨b₁, rfl, h⟩

theorem foldlM_ok_append {α β : Type} (f : β → α → Except String β) (b b' : β) (l₁ l₂ : List α)
    (h : (l₁ ++ l₂).foldlM f b = Except.ok b') :
    ∃ b₁, l₁.foldlM f b = Except.ok b₁ ∧ l₂.foldlM f b₁ = Except.ok b' := by
  rw [List.foldlM_append] at h
  cases ha : l₁.foldlM f b with
  | error e => rw [ha] at h; exact absurd h (by simp [except_bind_error])
  | ok b₁ => rw [ha] at h; exact ⟨b₁, rfl, h⟩

/-! Character-class lemmas, decidable over the 26 lowercase letters. -/

theorem lower_isAlpha : ∀ c ∈ lowerChars, c.isAlpha = true := by decide

theorem lower_isUpper : ∀ c ∈ lowerChars, c.isUpper = false := by decide

theorem lower_toLower : ∀ c ∈ lowerChars, c.toLower = c := by decide

theorem lower_toUpper_inj : ∀ c ∈ lowerChars, ∀ d ∈ lowerChars, c.toUpper = d.toUpper → c = d := by
  decide

theorem map_toLower_id (l : List Char) (h : ∀ c ∈ l, c ∈ lowerChars) :
    l.map Char.toLower = l := by
  induction l with
  | nil => rfl
  | cons c cs ih =>
    simp only [List.map_cons]
    rw [lower_toLower c (h c (by simp)), ih (fun d hd => h d (by simp [hd]))]

/-! Word-splitting lemmas. -/

theorem snaux_alpha (w : List Char) :
    ∀ (acc rest : List Char), (∀ c ∈ w, c.isAlpha = true) →
      splitNonAlphaAux acc (w ++ rest) = splitNonAlphaAux (w.reverse ++ acc) rest := by
  induction w with
  | nil => intro acc rest _; simp
  | cons c w ih =>
    intro acc rest h
    have hc : c.isAlpha = true := h c (by simp)
    simp only [List.cons_append, splitNonAlphaAux, hc, if_true]
    show splitNonAlphaAux (c :: acc) (w ++ rest) = _
    rw [ih (c :: acc) rest (fun d hd => h d (by simp [hd]))]
    simp

theorem snaux_hyphen (acc rest : List Char) :
    splitNonAlphaAux acc ('-' :: rest) =
      (if acc.isEmpty then [] else [acc.reverse]) ++ splitNonAlphaAux [] rest := by
  simp [splitNonAlphaAux]

theorem camelSplitAux_lower (l : List Char) :
    ∀ acc : List Char, (∀ c ∈ l, c ∈ lowerChars) →
      camelSplitAux acc l = [acc.reverse ++ l] := by
  induction l with
  | nil => intro acc _; simp [camelSplitAux]
  | cons c l ih =>
    intro acc h
    have hc : c.isUpper = false := lower_isUpper c (h c (by simp))
    have hb : camelSplitAux acc (c :: l) = camelSplitAux (c :: acc) l := by
      cases acc with
      | nil => simp [camelSplitAux]
      | cons p acc => simp [camelSplitAux, hc]
    rw [hb, ih (c :: acc) (fun d hd => h d (by simp [hd]))]
    simp

theorem camelSegs_lower (l : List Char) (h0 : l ≠ []) (h : ∀ c ∈ l, c ∈ lowerChars) :
    camelSegs l = [l] := by
  cases l with
  | nil => exact absurd rfl h0
  | cons c cs =>
    show camelSplitAux [] (c :: cs) = [c :: cs]
    rw [camelSplitAux_lower (c :: cs) [] h]
    simp

theorem capWord_lower (l : List Char) (c : Char) (cs : List Char) (hl : l = c :: cs)
    (h : ∀ d ∈ l, d ∈ lowerChars) : capWord l = c.toUpper :: cs := by
  subst hl
  unfold capWord
  rw [map_toLower_id (c :: cs) h]

/-- The camel words of `v ++ "-" ++ r` for lowercase `v` and `r`. -/
theorem camelWords_join2 (v r : String) (hv : lowerWord v) (hr : lowerWord r) :
    camelWords (v ++ "-" ++ r) = [v.data, r.data] := by
  obtain ⟨hv0, hvl⟩ := hv
  obtain ⟨hr0, hrl⟩ := hr
  have hdata : (v ++ "-" ++ r).data = v.data ++ '-' :: r.data := by
    simp [String.data_append]
  have h2 : splitNonAlphaAux [] r.data = [r.data] := by
    have h := snaux_alpha r.data [] [] (fun c hc => lower_isAlpha c (hrl c hc))
    simp only [List.append_nil] at h
    rw [h]
    show (if r.data.reverse.isEmpty then ([] : List (List Char)) else [r.data.reverse.reverse]) = _
    simp [List.isEmpty_iff, hr0]
  unfold camelWords splitNonAlpha
  rw [hdata, snaux_alpha v.data [] ('-' :: r.data) (fun c hc => lower_isAlpha c (hvl c hc)),
    List.append_nil, snaux_hyphen, h2]
  simp [List.isEmpty_iff, hv0, camelSegs_lower v.data hv0 hvl, camelSegs_lower r.data hr0 hrl]

/-- The camel words of `v ++ "-" ++ r ++ "-By-Id"` for lowercase `v`, `r`. -/
theorem camelWords_join4 (v r : String) (hv : lowerWord v) (hr : lowerWord r) :
    camelWords (v ++ "-" ++ r ++ "-" ++ "By" ++ "-" ++ "Id") =
      [v.data, r.data, ['B', 'y'], ['I', 'd']] := by
  obtain ⟨hv0, hvl⟩ := hv
  obtain ⟨hr0, hrl⟩ := hr
  have hdata : (v ++ "-" ++ r ++ "-" ++ "By" ++ "-" ++ "Id").data =
      v.data ++ '-' :: (r.data ++ '-' :: 'B' :: 'y' :: '-' :: 'I' :: 'd' :: []) := by
    simp [String.data_append]
  have htail : splitNonAlphaAux [] ('B' :: 'y' :: '-' :: 'I' :: 'd' :: []) =
      [['B', 'y'], ['I', 'd']] := by decide
  have hBy : camelSegs ['B', 'y'] = [['B', 'y']] := by decide
  have hId : camelSegs ['I', 'd'] = [['I', 'd']] := by decide
  unfold camelWords splitNonAlpha
  rw [hdata, snaux_alpha v.data [] _ (fun c hc => lower_isAlpha c (hvl c hc)),
    List.append_nil, snaux_hyphen]
  simp only [List.isEmpty_iff, hv0, if_neg, List.reverse_eq_nil_iff, if_false,
    List.reverse_reverse]
  rw [snaux_alpha r.data [] _ (fun c hc => lower_isAlpha c (hrl c hc)), List.append_nil,
    snaux_hyphen, htail]
  simp [List.isEmpty_iff, hv0, hr0, camelSegs_lower v.data hv0 hvl,
    camelSegs_lower r.data hr0 hrl, hBy, hId]

/-- Lodash `camelCase` of `v ++ "-" ++ r` for lowercase `v`, `r`. -/
theorem lodashCamelCase_join2 (v r : String) (hv : lowerWord v) (hr : lowerWord r) :
    lodashCamelCase (v ++ "-" ++ r) = v ++ lodashCapitalize r := by
  obtain ⟨hr0, hrl⟩ := hr
  cases hrd : r.data with
  | nil => exact absurd hrd hr0
  | cons c cs =>
    unfold lodashCamelCase
    rw [camelWords_join2 v r hv ⟨hr0, hrl⟩]
    have hcap := capWord_lower r.data c cs hrd hrl
    simp only [List.flatMap_cons, List.flatMap_nil, List.append_nil]
    rw [map_toLower_id v.data hv.2, hcap]
    apply String.ext
    show v.data ++ (c.toUpper :: cs) = (v ++ lodashCapitalize r).data
    rw [String.data_append]
    congr 1
    unfold lodashCapitalize
    rw [hrd]
    show c.toUpper :: cs = c.toLower.toUpper :: cs.map Char.toLower
    rw [lower_toLower c (hrl c (by simp [hrd])),
      map_toLower_id cs (fun d hd => hrl d (by simp [hrd, hd]))]

/-- Lodash `camelCase` of `v ++ "-" ++ r ++ "-By-Id"` for lowercase `v`, `r`. -/
theorem lodashCamelCase_join4 (v r : String) (hv : lowerWord v) (hr : lowerWord r) :
    lodashCamelCase (v ++ "-" ++ r ++ "-" ++ "By" ++ "-" ++ "Id") =
      v ++ lodashCapitalize r ++ "ById" := by
  obtain ⟨hr0, hrl⟩ := hr
  cases hrd : r.data with
  | nil => exact absurd hrd hr0
  | cons c cs =>
    unfold lodashCamelCase
    rw [camelWords_join4 v r hv ⟨hr0, hrl⟩]
    have hcap := capWord_lower r.data c cs hrd hrl
    simp only [List.flatMap_cons, List.flatMap_nil, List.append_nil]
    rw [map_toLower_id v.data hv.2, hcap]
    have hBy : capWord ['B', 'y'] = ['B', 'y'] := by decide
    have hId : capWord ['I', 'd'] = ['I', 'd'] := by decide
    rw [hBy, hId]
    apply String.ext
    show v.data ++ ((c.toUpper :: cs) ++ (['B', 'y'] ++ ['I', 'd'])) =
      (v ++ lodashCapitalize r ++ "ById").data
    rw [String.data_append, String.data_append]
    have hcapd : (lodashCapitalize r).data = c.toUpper :: cs := by
      unfold lodashCapitalize
      rw [hrd]
      show (c.toLower.toUpper :: cs.map Char.toLower) = c.toUpper :: cs
      rw [lower_toLower c (hrl c (by simp [hrd])),
        map_toLower_id cs (fun d hd => hrl d (by simp [hrd, hd]))]
    rw [hcapd]
    simp

/-! Projection lemmas for the per-operation resource schema. -/

theorem keysOf_projection (resource : Resource) (pfx : String) (allowed : List String) :
    keysOf (OperationSchemas.projectedAttributeProperties resource pfx allowed) =
      (keysOf resource.attributes).filter (fun a => lodashIncludes allowed a) := by
  unfold OperationSchemas.projectedAttributeProperties keysOf
  rw [List.map_map]
  show (resource.attributes.filter (fun p => lodashIncludes allowed p.1)).map Prod.fst = _
  induction resource.attributes with
  | nil => rfl
  | cons a l ih =>
    by_cases h : lodashIncludes allowed a.1 <;> simp [List.filter_cons, h, ih]

theorem attributesPropertyKeys_eq (resource : Resource) (resourceName operation : String)
    (allowed : List String)
    (hA : OperationSchemas.allowedAttributesOf resource operation = some allowed) :
    OperationSchemas.attributesPropertyKeys
        (OperationSchemas.getResourceSchema operation resource resourceName) =
      keysOf (OperationSchemas.projectedAttributeProperties resource
        (lodashCapitalize resourceName) allowed) := by
  by_cases hpost : operation = "post"
  · subst hpost
    simp [OperationSchemas.getResourceSchema, hA, OperationSchemas.attributesPropertyKeys,
      lookupKey]
  · by_cases hpatch : operation = "patch"
    · subst hpatch
      simp [OperationSchemas.getResourceSchema, hA, OperationSchemas.attributesPropertyKeys,
        lookupKey]
    · by_cases hget : operation = "get"
      · subst hget
        by_cases hs : resource.selfLinks <;>
          simp [OperationSchemas.getResourceSchema, hA, OperationSchemas.attributesPropertyKeys,
            lookupKey, hs]
      · simp [OperationSchemas.getResourceSchema, hA, OperationSchemas.attributesPropertyKeys,
          lookupKey, hpost, hpatch, hget]

/-! Claim theorems for the naming and response derivations. -/

/-- C2 (amended): the response map of each recognized operation.  `deleteById`
yields the `204Delete` reference plus — because `deleteById` is itself
id-scoped — a `404` reference, plus `500`.  Every other operation yields one
success response (201 for `post`, 200 otherwise) referencing the SetResult
schema for the plain `get` and the Result schema for `post` and the id-scoped
operations, plus `404` for the id-scoped operations, plus `409Post` for
`post` and `409Patch` for `patchById`, plus `500` always. -/
theorem claim2_responses (pfx : String) :
    getResponses "get" pfx =
      [("200", Val.obj
        [("description", Val.str ("REPLACEME")),
         ("content", Val.obj
           [("application/json", Val.obj
             [("schema", refVal ("#/components/schemas/" ++ pfx ++ "SetResult"))])])]),
       ("500", refVal ("#/components/responses/500"))] ∧
    getResponses "getById" pfx =
      [("200", Val.obj
        [("description", Val.str ("REPLACEME")),
         ("content", Val.obj
           [("application/json", Val.obj
             [("schema", refVal ("#/components/schemas/" ++ pfx ++ "Result"))])])]),
       ("404", refVal ("#/components/responses/404")),
       ("500", refVal ("#/components/responses/500"))] ∧
    getResponses "post" pfx =
      [("201", Val.obj
        [("description", Val.str ("REPLACEME")),
         ("content", Val.obj
           [("application/json", Val.obj
             [("schema", refVal ("#/components/schemas/" ++ pfx ++ "Result"))])])]),
       ("409", refVal ("#/components/responses/409Post")),
       ("500", refVal ("#/components/responses/500"))] ∧
    getResponses "patchById" pfx =
      [("200", Val.obj
        [("description", Val.str ("REPLACEME")),
         ("content", Val.obj
           [("application/json", Val.obj
             [("schema", refVal ("#/components/schemas/" ++ pfx ++ "Result"))])])]),
       ("404", refVal ("#/components/responses/404")),
       ("409", refVal ("#/components/responses/409Patch")),
       ("500", refVal ("#/components/responses/500"))] ∧
    getResponses "deleteById" pfx =
      [("204", refVal ("#/components/responses/204Delete")),
       ("404", refVal ("#/components/responses/404")),
       ("500", refVal ("#/components/responses/500"))] := by
  refine ⟨rfl, rfl, rfl, rfl, rfl⟩

/-- C2 counterexample: the claim says `deleteById` yields only the 204
reference plus 500, but the code also adds a 404 response because
`deleteById` is id-scoped. -/
theorem claim2_counterexample :
    keysOf (getResponses "deleteById" "Pet") = ["204", "404", "500"] ∧
    keysOf (getResponses "deleteById" "Pet") ≠ ["204", "500"] := by
  exact ⟨rfl, by decide⟩

/-- C4 (amended): `get`/`post` derive the collection path `/<plural>`, the
id operations derive `/<plural>/{id}` — with the literal placeholder `id`,
not `<resourceName>Id` — and every other token fails with the
`Unexpected operation` error. -/
theorem claim4_paths (plural operation : String) :
    getPath "get" plural = Except.ok ("/" ++ plural) ∧
    getPath "post" plural = Except.ok ("/" ++ plural) ∧
    getPath "getById" plural = Except.ok ("/" ++ plural ++ "/{id}") ∧
    getPath "patchById" plural = Except.ok ("/" ++ plural ++ "/{id}") ∧
    getPath "deleteById" plural = Except.ok ("/" ++ plural ++ "/{id}") ∧
    (operation ∉ (["get", "post", "getById", "patchById", "deleteById"] : List String) →
      getPath operation plural = Except.error ("Unexpected operation " ++ operation)) := by
  refine ⟨rfl, rfl, rfl, rfl, rfl, fun h => ?_⟩
  simp only [List.mem_cons, not_or, List.not_mem_nil, not_false_iff, and_true] at h
  obtain ⟨h1, h2, h3, h4, h5⟩ := h
  simp [getPath, lodashIncludes, isIdOperation, h1, h2, h3, h4, h5]

/-- C4 witness: an unknown token fails. -/
theorem claim4_witness :
    ("putById" : String) ∉ (["get", "post", "getById", "patchById", "deleteById"] : List String) ∧
    getPath "putById" "owners" = Except.error ("Unexpected operation putById") := by
  refine ⟨by decide, ?_⟩
  have h := (claim4_paths "owners" "putById").2.2.2.2.2 (by decide)
  exact h.trans (by rw [show ("Unexpected operation " ++ "putById" : String) = "Unexpected operation putById" from rfl])

/-- C4 counterexample: the claim derives `/owners/{ownerId}` for `patchById`
on resource `owner`, but the code derives `/owners/{id}` — the path
placeholder is the literal `id`. -/
theorem claim4_counterexample :
    getPath "patchById" "owners" = Except.ok ("/owners/{id}") ∧
    ("/owners/{id}" : String) ≠ "/owners/{ownerId}" := by
  exact ⟨rfl, by decide⟩

/-- C5: operationId synthesis — for the plain `get` the verb is joined with
the capitalized plural; for the other operations the camel words of the token
are re-joined with the capitalized resource name inserted as the second word;
in particular `patchById` maps to `patch<ResourceName>ById`. -/
theorem claim5_operationId (resource : Resource) (resourceName : String)
    (hn : lowerWord resourceName) (hp : lowerWord resource.plural) :
    getOperationId "get" resourceName resource = "get" ++ lodashCapitalize resource.plural ∧
    getOperationId "getById" resourceName resource =
      "get" ++ lodashCapitalize resourceName ++ "ById" ∧
    getOperationId "post" resourceName resource = "post" ++ lodashCapitalize resourceName ∧
    getOperationId "patchById" resourceName resource =
      "patch" ++ lodashCapitalize resourceName ++ "ById" ∧
    getOperationId "deleteById" resourceName resource =
      "delete" ++ lodashCapitalize resourceName ++ "ById" := by
  refine ⟨?_, ?_, ?_, ?_, ?_⟩
  · exact lodashCamelCase_join2 "get" resource.plural (by decide) hp
  · exact lodashCamelCase_join4 "get" resourceName (by decide) hn
  · exact lodashCamelCase_join2 "post" resourceName (by decide) hn
  · exact lodashCamelCase_join4 "patch" resourceName (by decide) hn
  · exact lodashCamelCase_join4 "delete" resourceName (by decide) hn

/-- C5 witness: `patchById` on resource `owner` yields `patchOwnerById`. -/
theorem claim5_witness :
    lowerWord "owner" ∧ lowerWord "owners" ∧
    getOperationId "patchById" "owner" ownerResource = "patchOwnerById" := by
  refine ⟨by decide, by decide, ?_⟩
  have h := (claim5_operationId ownerResource "owner" (by decide) (by decide)).2.2.2.1
  exact h.trans (by decide)

/-- C6 (amended): the schema prefix function is injective over resource
names written in ASCII lowercase (it is not injective over arbitrary names,
because `_.capitalize` lowercases every character after the first). -/
theorem claim6_prefix_injective (s t : String)
    (hs : ∀ c ∈ s.data, c ∈ lowerChars) (ht : ∀ c ∈ t.data, c ∈ lowerChars)
    (h : lodashCapitalize s = lodashCapitalize t) : s = t := by
  cases hsd : s.data with
  | nil =>
    cases htd : t.data with
    | nil => exact String.ext (hsd.trans htd.symm)
    | cons d ds =>
      unfold lodashCapitalize at h
      rw [hsd, htd] at h
      exact absurd (congrArg String.data h) (by simp)
  | cons c cs =>
    cases htd : t.data with
    | nil =>
      unfold lodashCapitalize at h
      rw [hsd, htd] at h
      exact absurd (congrArg String.data h) (by simp)
    | cons d ds =>
      unfold lodashCapitalize at h
      rw [hsd, htd] at h
      have h' : c.toLower.toUpper :: cs.map Char.toLower =
          d.toLower.toUpper :: ds.map Char.toLower := congrArg String.data h
      simp only [List.cons.injEq] at h'
      obtain ⟨hhead, htail⟩ := h'
      have hc : c ∈ lowerChars := hs c (by simp [hsd])
      have hd : d ∈ lowerChars := ht d (by simp [htd])
      rw [lower_toLower c hc, lower_toLower d hd] at hhead
      have hcd : c = d := lower_toUpper_inj c hc d hd hhead
      rw [map_toLower_id cs (fun e he => hs e (by simp [hsd, he])),
        map_toLower_id ds (fun e he => ht e (by simp [htd, he]))] at htail
      exact String.ext (by rw [hsd, htd, hcd, htail])

/-- C6 witness. -/
theorem claim6_witness :
    (∀ c ∈ ("pet" : String).data, c ∈ lowerChars) ∧
    lodashCapitalize "pet" = lodashCapitalize "pet" ∧ ("pet" : String) = "pet" := by
  exact ⟨by decide, rfl, claim6_prefix_injective "pet" "pet" (by decide) (by decide) rfl⟩

/-- C6 counterexample: two distinct resource names with the same derived
prefix — `_.capitalize` lowercases everything after the first character. -/
theorem claim6_counterexample :
    lodashCapitalize "aB" = lodashCapitalize "ab" ∧ ("aB" : String) ≠ "ab" := by
  exact ⟨rfl, by decide⟩

/-- C8: for every `(attributeName, operator)` pair of `filterParams`, the
modelled `get` parameter list contains the query parameter named
`filter[<attributeName>]` for `eq` and `filter[<attributeName>][<operator>]`
otherwise, with schema type/format copied from the matching attribute. -/
theorem claim8_filter_parameters (resource : Resource) (attributeName operator : String)
    (ops : List String)
    (h1 : (attributeName, ops) ∈ resource.filterParams) (h2 : operator ∈ ops) :
    SpecModel.filterParameter resource attributeName operator ∈
      SpecModel.specGetParameters resource ∧
    SpecModel.filterParameter resource attributeName operator =
      Val.obj
        [("name", Val.str (SpecModel.filterParamName attributeName operator)),
         ("in", Val.str ("query")),
         ("schema", SpecModel.filterParamSchema resource attributeName)] := by
  refine ⟨?_, rfl⟩
  unfold SpecModel.specGetParameters
  apply List.mem_append_right
  unfold SpecModel.filterParameters
  exact List.mem_flatMap.mpr
    ⟨(attributeName, ops), h1, List.mem_map.mpr ⟨operator, h2, rfl⟩⟩

/-- C8 witness: the `fuzzy` operator on attribute `name`. -/
theorem claim8_witness :
    ("name", ["eq", "fuzzy"]) ∈ filterResource.filterParams ∧
    ("fuzzy" : String) ∈ (["eq", "fuzzy"] : List String) ∧
    SpecModel.filterParameter filterResource "name" "fuzzy" ∈
      SpecModel.specGetParameters filterResource := by
  exact ⟨by decide, by decide,
    (claim8_filter_parameters filterResource "name" "fuzzy" ["eq", "fuzzy"]
      (by decide) (by decide)).1⟩

/-- C9: an attribute name listed in a restricted attribute subset but absent
from the attributes map is silently dropped by the projection: the projected
property keys are exactly the declared attribute keys that pass the allowed
filter, so the unknown name never appears, and the (total) schema builder
still produces a schema. -/
theorem claim9_soft_fail (resource : Resource) (resourceName operation name : String)
    (allowed : List String)
    (hA : OperationSchemas.allowedAttributesOf resource operation = some allowed)
    (hname : name ∉ keysOf resource.attributes) :
    OperationSchemas.attributesPropertyKeys
        (OperationSchemas.getResourceSchema operation resource resourceName) =
      (keysOf resource.attributes).filter (fun a => lodashIncludes allowed a) ∧
    name ∉ OperationSchemas.attributesPropertyKeys
        (OperationSchemas.getResourceSchema operation resource resourceName) := by
  have he := (attributesPropertyKeys_eq resource resourceName operation allowed hA).trans
    (keysOf_projection resource (lodashCapitalize resourceName) allowed)
  refine ⟨he, ?_⟩
  rw [he]
  intro hmem
  exact hname (List.mem_of_mem_filter hmem)

/-- C9 witness: `getAttributes` lists the unknown `ghost`; the projection
keeps only `name`. -/
theorem claim9_witness :
    OperationSchemas.allowedAttributesOf ghostAttrResource "get" = some ["name", "ghost"] ∧
    ("ghost" : String) ∉ keysOf ghostAttrResource.attributes ∧
    ("ghost" : String) ∉ OperationSchemas.attributesPropertyKeys
      (OperationSchemas.getResourceSchema "get" ghostAttrResource "pet") := by
  exact ⟨rfl, by decide,
    (claim9_soft_fail ghostAttrResource "pet" "get" "ghost" ["name", "ghost"] rfl
      (by decide)).2⟩

/-! String helper lemmas for the generated key namespaces. -/

theorem key_ne_of_lastChar (k a suf : String) (hsuf : suf.data ≠ []) (c : Char)
    (hc : lastChar suf = some c) (hk : lastChar k ≠ some c) : k ≠ a ++ suf := by
  apply ne_of_lastChar_ne
  rw [lastChar_append a suf hsuf, hc]
  exact hk

theorem string_append_cancel_left (a b c : String) (h : a ++ b = a ++ c) : b = c := by
  have h' : a.data ++ b.data = a.data ++ c.data := by
    rw [← String.data_append, ← String.data_append, h]
  exact String.ext (List.append_cancel_left h')

/-! The `buildResources` phase. -/

theorem buildResourcesStep_spec (d : OpenApiDoc) (e : String × Resource) :
    ∃ s : List (String × Val),
      buildResourcesStep d e =
        Except.ok { d with components := { d.components with schemas := s } } ∧
      (∀ k, k ∈ keysOf d.components.schemas → k ∈ keysOf s) ∧
      ((lodashCapitalize e.1 ++ "Resource") ∈ keysOf s ∧
       (lodashCapitalize e.1 ++ "Result") ∈ keysOf s ∧
       (lodashCapitalize e.1 ++ "SetResult") ∈ keysOf s) ∧
      (∀ k, lastChar k ≠ some 'e' → lastChar k ≠ some 't' → lastChar k ≠ some 'y' →
        (keysOf s).count k = (keysOf d.components.schemas).count k) := by
  set pfx := lodashCapitalize e.1 with hpfx
  have hres : lastChar (pfx ++ "Resource") = some 'e' := by
    rw [lastChar_append _ _ (by decide)]; rfl
  have hrlt : lastChar (pfx ++ "Result") = some 't' := by
    rw [lastChar_append _ _ (by decide)]; rfl
  have hsrt : lastChar (pfx ++ "SetResult") = some 't' := by
    rw [lastChar_append _ _ (by decide)]; rfl
  have hpob : lastChar (pfx ++ "PostBody") = some 'y' := by
    rw [lastChar_append _ _ (by decide)]; rfl
  have hpab : lastChar (pfx ++ "PatchBody") = some 'y' := by
    rw [lastChar_append _ _ (by decide)]; rfl
  obtain ⟨vpost, hvpost⟩ : ∃ v, getRequestBodySchema e.2 (pfx ++ "Resource") ("post") =
      Except.ok v := ⟨_, rfl⟩
  obtain ⟨vpatch, hvpatch⟩ : ∃ v, getRequestBodySchema e.2 (pfx ++ "Resource") ("patch") =
      Except.ok v := ⟨_, rfl⟩
  -- the schema map after the three unconditional inserts
  set s₀ := setKey (setKey (setKey d.components.schemas (pfx ++ "Resource")
    (getResourceSchema e.2 e.1)) (pfx ++ "Result") (getResultSchema (pfx ++ "Resource")))
    (pfx ++ "SetResult") (getSetResultSchema e.2 (pfx ++ "Resource")) with hs₀
  have hmono₀ : ∀ k, k ∈ keysOf d.components.schemas → k ∈ keysOf s₀ := by
    intro k hk
    exact mem_keysOf_setKey_of_mem _ _ _ _
      (mem_keysOf_setKey_of_mem _ _ _ _ (mem_keysOf_setKey_of_mem _ _ _ _ hk))
  have hthree₀ : (pfx ++ "Resource") ∈ keysOf s₀ ∧ (pfx ++ "Result") ∈ keysOf s₀ ∧
      (pfx ++ "SetResult") ∈ keysOf s₀ := by
    refine ⟨?_, ?_, ?_⟩
    · exact mem_keysOf_setKey_of_mem _ _ _ _
        (mem_keysOf_setKey_of_mem _ _ _ _ (mem_keysOf_setKey_self _ _ _))
    · exact mem_keysOf_setKey_of_mem _ _ _ _ (mem_keysOf_setKey_self _ _ _)
    · exact mem_keysOf_setKey_self _ _ _
  have hcount₀ : ∀ k, lastChar k ≠ some 'e' → lastChar k ≠ some 't' → lastChar k ≠ some 'y' →
      (keysOf s₀).count k = (keysOf d.components.schemas).count k := by
    intro k he ht _
    rw [count_keysOf_setKey_ne _ _ _ _ (key_ne_of_lastChar k pfx "SetResult" (by decide) 't' (by rfl) ht),
      count_keysOf_setKey_ne _ _ _ _ (key_ne_of_lastChar k pfx "Result" (by decide) 't' (by rfl) ht),
      count_keysOf_setKey_ne _ _ _ _ (key_ne_of_lastChar k pfx "Resource" (by decide) 'e' (by rfl) he)]
  by_cases h1 : lodashIncludes e.2.operations ("post") <;>
    by_cases h2 : lodashIncludes e.2.operations ("patchById")
  · -- post and patchById
    refine ⟨setKey (setKey s₀ (pfx ++ "PostBody") vpost) (pfx ++ "PatchBody") vpatch,
      ?_, ?_, ?_, ?_⟩
    · simp only [buildResourcesStep, h1, h2, if_true, hvpost, hvpatch, except_bind_ok]
    · intro k hk
      exact mem_keysOf_setKey_of_mem _ _ _ _ (mem_keysOf_setKey_of_mem _ _ _ _ (hmono₀ k hk))
    · exact ⟨mem_keysOf_setKey_of_mem _ _ _ _ (mem_keysOf_setKey_of_mem _ _ _ _ hthree₀.1),
        mem_keysOf_setKey_of_mem _ _ _ _ (mem_keysOf_setKey_of_mem _ _ _ _ hthree₀.2.1),
        mem_keysOf_setKey_of_mem _ _ _ _ (mem_keysOf_setKey_of_mem _ _ _ _ hthree₀.2.2)⟩
    · intro k he ht hy
      rw [count_keysOf_setKey_ne _ _ _ _ (key_ne_of_lastChar k pfx "PatchBody" (by decide) 'y' (by rfl) hy),
        count_keysOf_setKey_ne _ _ _ _ (key_ne_of_lastChar k pfx "PostBody" (by decide) 'y' (by rfl) hy)]
      exact hcount₀ k he ht hy
  · -- post only
    refine ⟨setKey s₀ (pfx ++ "PostBody") vpost, ?_, ?_, ?_, ?_⟩
    · simp only [buildResourcesStep, h1, h2, if_true, if_false, Bool.false_eq_true,
        hvpost, except_bind_ok]
    · intro k hk
      exact mem_keysOf_setKey_of_mem _ _ _ _ (hmono₀ k hk)
    · exact ⟨mem_keysOf_setKey_of_mem _ _ _ _ hthree₀.1,
        mem_keysOf_setKey_of_mem _ _ _ _ hthree₀.2.1,
        mem_keysOf_setKey_of_mem _ _ _ _ hthree₀.2.2⟩
    · intro k he ht hy
      rw [count_keysOf_setKey_ne _ _ _ _ (key_ne_of_lastChar k pfx "PostBody" (by decide) 'y' (by rfl) hy)]
      exact hcount₀ k he ht hy
  · -- patchById only
    refine ⟨setKey s₀ (pfx ++ "PatchBody") vpatch, ?_, ?_, ?_, ?_⟩
    · simp only [buildResourcesStep, h1, h2, if_true, if_false, Bool.false_eq_true,
        hvpatch, except_bind_ok]
    · intro k hk
      exact mem_keysOf_setKey_of_mem _ _ _ _ (hmono₀ k hk)
    · exact ⟨mem_keysOf_setKey_of_mem _ _ _ _ hthree₀.1,
        mem_keysOf_setKey_of_mem _ _ _ _ hthree₀.2.1,
        mem_keysOf_setKey_of_mem _ _ _ _ hthree₀.2.2⟩
    · intro k he ht hy
      rw [count_keysOf_setKey_ne _ _ _ _ (key_ne_of_lastChar k pfx "PatchBody" (by decide) 'y' (by rfl) hy)]
      exact hcount₀ k he ht hy
  · -- neither
    refine ⟨s₀, ?_, hmono₀, hthree₀, hcount₀⟩
    simp only [buildResourcesStep, h1, h2, if_false, Bool.false_eq_true, except_bind_ok]

theorem buildResources_fold_spec (l : List (String × Resource)) :
    ∀ d : OpenApiDoc, ∃ d' : OpenApiDoc,
      List.foldlM buildResourcesStep d l = Except.ok d' ∧
      d'.paths = d.paths ∧
      d'.components.securitySchemes = d.components.securitySchemes ∧
      d'.components.parameters = d.components.parameters ∧
      d'.components.responses = d.components.responses ∧
      d'.components.requestBodies = d.components.requestBodies ∧
      (∀ k, k ∈ keysOf d.components.schemas → k ∈ keysOf d'.components.schemas) ∧
      (∀ e ∈ l, (lodashCapitalize e.1 ++ "Resource") ∈ keysOf d'.components.schemas ∧
        (lodashCapitalize e.1 ++ "Result") ∈ keysOf d'.components.schemas ∧
        (lodashCapitalize e.1 ++ "SetResult") ∈ keysOf d'.components.schemas) ∧
      (∀ k, lastChar k ≠ some 'e' → lastChar k ≠ some 't' → lastChar k ≠ some 'y' →
        (keysOf d'.components.schemas).count k = (keysOf d.components.schemas).count k) := by
  induction l with
  | nil =>
    intro d
    exact ⟨d, rfl, rfl, rfl, rfl, rfl, rfl, fun _ hk => hk, fun e he => absurd he (by simp),
      fun _ _ _ _ => rfl⟩
  | cons e l ih =>
    intro d
    obtain ⟨s, hstep, hmono, hthree, hcount⟩ := buildResourcesStep_spec d e
    obtain ⟨d', hfold, hpaths, hsec, hparams, hresp, hreq, hmono', hthree', hcount'⟩ :=
      ih { d with components := { d.components with schemas := s } }
    refine ⟨d', ?_, hpaths, hsec, hparams, hresp, hreq, ?_, ?_, ?_⟩
    · rw [List.foldlM_cons, hstep, except_bind_ok]
      exact hfold
    · exact fun k hk => hmono' k (hmono k hk)
    · intro e' he'
      rcases List.mem_cons.mp he' with he' | he'
      · subst he'
        exact ⟨hmono' _ hthree.1, hmono' _ hthree.2.1, hmono' _ hthree.2.2⟩
      · exact hthree' e' he'
    · intro k he ht hy
      rw [hcount' k he ht hy]
      exact hcount k he ht hy

theorem buildResources_spec (config : Config) (d : OpenApiDoc) :
    ∃ d' : OpenApiDoc,
      buildResources config d = Except.ok d' ∧
      d'.paths = d.paths ∧
      d'.components.securitySchemes = d.components.securitySchemes ∧
      d'.components.parameters = d.components.parameters ∧
      d'.components.responses = d.components.responses ∧
      d'.components.requestBodies = d.components.requestBodies ∧
      (∀ k, k ∈ keysOf d.components.schemas → k ∈ keysOf d'.components.schemas) ∧
      (∀ e ∈ config.resources, (lodashCapitalize e.1 ++ "Resource") ∈ keysOf d'.components.schemas ∧
        (lodashCapitalize e.1 ++ "Result") ∈ keysOf d'.components.schemas ∧
        (lodashCapitalize e.1 ++ "SetResult") ∈ keysOf d'.components.schemas) ∧
      (∀ k, lastChar k ≠ some 'e' → lastChar k ≠ some 't' → lastChar k ≠ some 'y' →
        (keysOf d'.components.schemas).count k = (keysOf d.components.schemas).count k) :=
  buildResources_fold_spec config.resources d

/-! The relationship endpoints of `buildEndpoints`. -/

theorem buildRelationshipStep_spec (config : Config) (rn : String) (r : Resource)
    (pfx baseUrl : String) (d : OpenApiDoc) (e : String × Relationship) :
    ∃ d', buildRelationshipStep config rn r pfx baseUrl d e = Except.ok d' ∧
      d'.components.securitySchemes = d.components.securitySchemes ∧
      d'.components.parameters = d.components.parameters ∧
      (∀ k, k ∈ keysOf d.components.schemas → k ∈ keysOf d'.components.schemas) ∧
      (∀ k, lastChar k ≠ some 'p' → lastChar k ≠ some 't' →
        (keysOf d'.components.schemas).count k = (keysOf d.components.schemas).count k) ∧
      ∃ pobj,
        d'.paths = setKey d.paths ("/" ++ r.plural ++ "/{id}" ++ "/relationships/" ++ e.1) pobj ∧
        keysOf pobj = relationshipMethods (decide (e.2.relationshipType = "toMany")) := by
  have hgp : getPath ("getById") r.plural = Except.ok ("/" ++ r.plural ++ "/{id}") := rfl
  have hrel : lastChar (pfx ++ lodashCapitalize e.2.type' ++ "Relationship") = some 'p' := by
    rw [lastChar_append _ _ (by decide)]; rfl
  -- the two schema inserts of the step, shared by both cardinality branches
  have hschemas :
      ∀ (relName respName : String) (relSchema respSchema : Val),
        lastChar relName = some 'p' → lastChar respName = some 't' →
        (∀ k, k ∈ keysOf d.components.schemas →
          k ∈ keysOf (setKey
            (if (lookupKey d.components.schemas relName).isSome then d.components.schemas
             else setKey d.components.schemas relName relSchema) respName respSchema)) ∧
        (∀ k, lastChar k ≠ some 'p' → lastChar k ≠ some 't' →
          (keysOf (setKey
            (if (lookupKey d.components.schemas relName).isSome then d.components.schemas
             else setKey d.components.schemas relName relSchema) respName respSchema)).count k =
          (keysOf d.components.schemas).count k) := by
    intro relName respName relSchema respSchema hrn hresp
    constructor
    · intro k hk
      apply mem_keysOf_setKey_of_mem
      by_cases hex : (lookupKey d.components.schemas relName).isSome
      · rw [if_pos hex]; exact hk
      · rw [if_neg hex]; exact mem_keysOf_setKey_of_mem _ _ _ _ hk
    · intro k hp ht
      have hne1 : k ≠ respName := ne_of_lastChar_ne (by rw [hresp]; exact ht)
      have hne2 : k ≠ relName := ne_of_lastChar_ne (by rw [hrn]; exact hp)
      rw [count_keysOf_setKey_ne _ _ _ _ hne1]
      by_cases hex : (lookupKey d.components.schemas relName).isSome
      · rw [if_pos hex]
      · rw [if_neg hex, count_keysOf_setKey_ne _ _ _ _ hne2]
  by_cases hm : e.2.relationshipType = "toMany"
  · cases hstep : buildRelationshipStep config rn r pfx baseUrl d e with
    | error err =>
      exact absurd hstep (by simp [buildRelationshipStep, hgp, except_bind_ok, hm])
    | ok d' =>
      refine ⟨d', rfl, ?_, ?_, ?_, ?_, ?_⟩ <;>
      · simp only [buildRelationshipStep, hgp, except_bind_ok, hm, if_true,
          Except.ok.injEq] at hstep
        subst hstep
        first
        | rfl
        | exact (hschemas _ _ _ _
            (by rw [lastChar_append _ _ (by decide)]; rfl)
            (by rw [lastChar_append _ _ (by decide)]; rfl)).1
        | exact (hschemas _ _ _ _
            (by rw [lastChar_append _ _ (by decide)]; rfl)
            (by rw [lastChar_append _ _ (by decide)]; rfl)).2
        | exact ⟨_, rfl, by simp [hm, relationshipMethods, setKey, keysOf]⟩
  · cases hstep : buildRelationshipStep config rn r pfx baseUrl d e with
    | error err =>
      exact absurd hstep (by simp [buildRelationshipStep, hgp, except_bind_ok, hm])
    | ok d' =>
      refine ⟨d', rfl, ?_, ?_, ?_, ?_, ?_⟩ <;>
      · simp only [buildRelationshipStep, hgp, except_bind_ok, hm, if_false,
          Except.ok.injEq] at hstep
        subst hstep
        first
        | rfl
        | exact (hschemas _ _ _ _ hrel
            (by rw [lastChar_append _ _ (by decide)]; rfl)).1
        | exact (hschemas _ _ _ _ hrel
            (by rw [lastChar_append _ _ (by decide)]; rfl)).2
        | exact ⟨_, rfl, by simp [hm, relationshipMethods, setKey, keysOf]⟩

theorem relFold_spec (config : Config) (rn : String) (r : Resource) (pfx baseUrl : String)
    (l : List (String × Relationship)) :
    ∀ d : OpenApiDoc, ∃ d' : OpenApiDoc,
      l.foldlM (buildRelationshipStep config rn r pfx baseUrl) d = Except.ok d' ∧
      d'.components.securitySchemes = d.components.securitySchemes ∧
      d'.components.parameters = d.components.parameters ∧
      (∀ k, k ∈ keysOf d.components.schemas → k ∈ keysOf d'.components.schemas) ∧
      (∀ k, lastChar k ≠ some 'p' → lastChar k ≠ some 't' →
        (keysOf d'.components.schemas).count k = (keysOf d.components.schemas).count k) ∧
      (∀ p, (∀ e ∈ l, p ≠ "/" ++ r.plural ++ "/{id}" ++ "/relationships/" ++ e.1) →
        lookupKey d'.paths p = lookupKey d.paths p) := by
  induction l with
  | nil =>
    intro d
    exact ⟨d, rfl, rfl, rfl, fun _ hk => hk, fun _ _ _ => rfl, fun _ _ => rfl⟩
  | cons e l ih =>
    intro d
    obtain ⟨d₁, hstep, hsec, hparams, hmono, hcount, pobj, hpaths, _⟩ :=
      buildRelationshipStep_spec config rn r pfx baseUrl d e
    obtain ⟨d', hfold, hsec', hparams', hmono', hcount', hlook'⟩ := ih d₁
    refine ⟨d', ?_, hsec'.trans hsec, hparams'.trans hparams,
      fun k hk => hmono' k (hmono k hk),
      fun k hp ht => (hcount' k hp ht).trans (hcount k hp ht), ?_⟩
    · rw [List.foldlM_cons, hstep, except_bind_ok]
      exact hfold
    · intro p hp
      rw [hlook' p (fun e' he' => hp e' (List.mem_cons_of_mem e he')), hpaths,
        lookupKey_setKey_ne _ _ _ _ ?_]
      exact fun heq => hp e (List.mem_cons_self e l) heq.symm

theorem relFold_result (config : Config) (rn : String) (r : Resource) (pfx baseUrl : String)
    (l : List (String × Relationship)) (relName : String) (rel : Relationship)
    (hmem : (relName, rel) ∈ l) (hnd : (keysOf l).Nodup) :
    ∀ d d', l.foldlM (buildRelationshipStep config rn r pfx baseUrl) d = Except.ok d' →
      (lookupKey d'.paths ("/" ++ r.plural ++ "/{id}" ++ "/relationships/" ++ relName)).map
          keysOf =
        some (relationshipMethods (decide (rel.relationshipType = "toMany"))) := by
  intro d d' hfold
  obtain ⟨l₁, l₂, rfl⟩ := List.append_of_mem hmem
  obtain ⟨d₁, hf₁, hf₂⟩ := foldlM_ok_append _ _ _ _ _ hfold
  obtain ⟨d₂, hstep, hf₃⟩ := foldlM_ok_cons _ _ _ _ _ hf₂
  obtain ⟨d₂', hstep', _, _, _, _, pobj, hpaths, hkeys⟩ :=
    buildRelationshipStep_spec config rn r pfx baseUrl d₁ (relName, rel)
  rw [hstep'] at hstep
  have hd₂ : d₂ = d₂' := by
    injection hstep.symm
  subst hd₂
  obtain ⟨d₃, hfold₂, _, _, _, _, hlook⟩ := relFold_spec config rn r pfx baseUrl l₂ d₂
  rw [hfold₂] at hf₃
  have hd₃ : d' = d₃ := by injection hf₃.symm
  subst hd₃
  have hnotin : relName ∉ keysOf l₂ := by
    have := hnd
    rw [keysOf, List.map_append, List.map_cons] at this
    have h2 := (List.nodup_append.mp this).2.1
    rw [List.nodup_cons] at h2
    exact h2.1
  have hne : ∀ e' ∈ l₂,
      ("/" ++ r.plural ++ "/{id}" ++ "/relationships/" ++ relName) ≠
        "/" ++ r.plural ++ "/{id}" ++ "/relationships/" ++ e'.1 := by
    intro e' he' heq
    have : relName = e'.1 := string_append_cancel_left _ _ _ heq
    exact hnotin (this ▸ List.mem_map_of_mem Prod.fst he')
  rw [hlook _ hne, hpaths, lookupKey_setKey_self]
  simp [hkeys]

/-! Frame lemmas for the endpoints phase. -/

theorem beStep_frame (config : Config) (baseUrl : String) (d : OpenApiDoc)
    (e : String × Resource) (d' : OpenApiDoc)
    (h : buildEndpointsResourceStep config baseUrl d e = Except.ok d') :
    (∀ k, lastChar k ≠ some 'd' →
      (keysOf d'.components.parameters).count k = (keysOf d.components.parameters).count k) ∧
    (∀ k, k ∈ keysOf d.components.schemas → k ∈ keysOf d'.components.schemas) ∧
    (∀ k, lastChar k ≠ some 'p' → lastChar k ≠ some 't' →
      (keysOf d'.components.schemas).count k = (keysOf d.components.schemas).count k) := by
  have hid : lastChar (idParamName e.1) = some 'd' := by
    show lastChar (e.1 ++ "Id") = some 'd'
    rw [lastChar_append _ _ (by decide)]; rfl
  by_cases hany : e.2.operations.any (fun operation => isIdOperation operation)
  · simp only [buildEndpointsResourceStep, hany, if_true] at h
    cases hop : List.foldlM (buildOperationStep e.1 e.2 (lodashCapitalize e.1))
        ({ d with components := { d.components with
          parameters := setKey d.components.parameters (idParamName e.1) idPathParameterVal } }).paths
        e.2.operations with
    | error err => rw [hop, except_bind_error] at h; exact absurd h (by simp)
    | ok paths' =>
      rw [hop, except_bind_ok] at h
      obtain ⟨d'', hfold, _, hparams, hmono, hcount, _⟩ :=
        relFold_spec config e.1 e.2 (lodashCapitalize e.1) baseUrl e.2.relationships
          { { d with components := { d.components with
              parameters := setKey d.components.parameters (idParamName e.1) idPathParameterVal } }
            with paths := paths' }
      rw [hfold] at h
      have hd : d'' = d' := by injection h
      subst hd
      refine ⟨?_, ?_, ?_⟩
      · intro k hk
        rw [hparams]
        exact count_keysOf_setKey_ne _ _ _ _ (ne_of_lastChar_ne (by rw [hid]; exact hk))
      · exact hmono
      · exact hcount
  · simp only [buildEndpointsResourceStep, hany, if_false, Bool.false_eq_true] at h
    cases hop : List.foldlM (buildOperationStep e.1 e.2 (lodashCapitalize e.1))
        d.paths e.2.operations with
    | error err => rw [hop, except_bind_error] at h; exact absurd h (by simp)
    | ok paths' =>
      rw [hop, except_bind_ok] at h
      obtain ⟨d'', hfold, _, hparams, hmono, hcount, _⟩ :=
        relFold_spec config e.1 e.2 (lodashCapitalize e.1) baseUrl e.2.relationships
          { d with paths := paths' }
      rw [hfold] at h
      have hd : d'' = d' := by injection h
      subst hd
      exact ⟨fun k _ => by rw [hparams], hmono, hcount⟩

theorem buildEndpoints_frame (config : Config) (baseUrl : String) :
    ∀ (l : List (String × Resource)) (d d' : OpenApiDoc),
      l.foldlM (buildEndpointsResourceStep config baseUrl) d = Except.ok d' →
      (∀ k, lastChar k ≠ some 'd' →
        (keysOf d'.components.parameters).count k = (keysOf d.components.parameters).count k) ∧
      (∀ k, k ∈ keysOf d.components.schemas → k ∈ keysOf d'.components.schemas) ∧
      (∀ k, lastChar k ≠ some 'p' → lastChar k ≠ some 't' →
        (keysOf d'.components.schemas).count k = (keysOf d.components.schemas).count k) := by
  intro l
  induction l with
  | nil =>
    intro d d' h
    have hd : d = d' := by
      simp only [List.foldlM, pure, Except.pure, Except.ok.injEq] at h
      exact h
    subst hd
    exact ⟨fun _ _ => rfl, fun _ hk => hk, fun _ _ _ => rfl⟩
  | cons e l ih =>
    intro d d' h
    obtain ⟨d₁, hstep, hfold⟩ := foldlM_ok_cons _ _ _ _ _ h
    obtain ⟨hp₁, hm₁, hc₁⟩ := beStep_frame config baseUrl d e d₁ hstep
    obtain ⟨hp₂, hm₂, hc₂⟩ := ih d₁ d' hfold
    exact ⟨fun k hk => (hp₂ k hk).trans (hp₁ k hk),
      fun k hk => hm₂ k (hm₁ k hk),
      fun k hp ht => (hc₂ k hp ht).trans (hc₁ k hp ht)⟩

theorem generate_ok_parts (config : Config) (doc : OpenApiDoc)
    (h : generate config = Except.ok doc) :
    ∃ d₁, buildResources config (init config) = Except.ok d₁ ∧
      buildEndpoints config (serverUrl (init config)) d₁ = Except.ok doc := by
  simp only [generate] at h
  cases hbr : buildResources config (init config) with
  | error err => rw [hbr, except_bind_error] at h; exact absurd h (by simp)
  | ok d₁ =>
    rw [hbr, except_bind_ok] at h
    exact ⟨d₁, rfl, h⟩

theorem beStep_relFold (config : Config) (baseUrl : String) (d : OpenApiDoc)
    (e : String × Resource) (d' : OpenApiDoc)
    (h : buildEndpointsResourceStep config baseUrl d e = Except.ok d') :
    ∃ dbase, e.2.relationships.foldlM
      (buildRelationshipStep config e.1 e.2 (lodashCapitalize e.1) baseUrl) dbase =
      Except.ok d' := by
  by_cases hany : e.2.operations.any (fun operation => isIdOperation operation)
  · simp only [buildEndpointsResourceStep, hany, if_true] at h
    cases hop : List.foldlM (buildOperationStep e.1 e.2 (lodashCapitalize e.1))
        ({ d with components := { d.components with
          parameters := setKey d.components.parameters (idParamName e.1) idPathParameterVal } }).paths
        e.2.operations with
    | error err => rw [hop, except_bind_error] at h; exact absurd h (by simp)
    | ok paths' =>
      rw [hop, except_bind_ok] at h
      exact ⟨_, h⟩
  · simp only [buildEndpointsResourceStep, hany, if_false, Bool.false_eq_true] at h
    cases hop : List.foldlM (buildOperationStep e.1 e.2 (lodashCapitalize e.1))
        d.paths e.2.operations with
    | error err => rw [hop, except_bind_error] at h; exact absurd h (by simp)
    | ok paths' =>
      rw [hop, except_bind_ok] at h
      exact ⟨_, h⟩

/-- C1: evaluating the generator on a configuration whose single resource has
a relationship but no id-scoped operation: the relationship operations emit
the `$ref` `#/components/parameters/petId`, but `components.parameters` never
receives a `petId` key, a dangling reference. -/
theorem claim1_dangling_ref :
    (generate cfgPetRel).map (fun doc =>
      (refsOfDoc doc).contains ("#/components/parameters/petId") &&
      !((keysOf doc.components.parameters).contains ("petId"))) = Except.ok true := by
  rfl

/-! Path-disjointness lemmas: distinct slash-free plurals yield distinct
relationship paths, and operation paths have fewer path segments than
relationship paths. -/

theorem segment_eq : ∀ (a b rest rest' : List Char), ('/' : Char) ∉ a → ('/' : Char) ∉ b →
    a ++ '/' :: rest = b ++ '/' :: rest' → a = b ∧ rest = rest' := by
  intro a
  induction a with
  | nil =>
    intro b rest rest' _ hb h
    cases b with
    | nil => simpa using h
    | cons c bs =>
      simp only [List.nil_append, List.cons_append, List.cons.injEq] at h
      exact absurd (h.1 ▸ List.mem_cons_self c bs) hb
  | cons c as ih =>
    intro b rest rest' ha hb h
    cases b with
    | nil =>
      simp only [List.cons_append, List.nil_append, List.cons.injEq] at h
      exact absurd (h.1.symm ▸ List.mem_cons_self c as) ha
    | cons e bs =>
      simp only [List.cons_append, List.cons.injEq] at h
      obtain ⟨hce, htail⟩ := h
      obtain ⟨h1, h2⟩ := ih bs rest rest' (fun hm => ha (List.mem_cons_of_mem c hm))
        (fun hm => hb (List.mem_cons_of_mem e hm)) htail
      exact ⟨by rw [hce, h1], h2⟩

theorem relPath_data_shape (q m : String) :
    ("/" ++ q ++ "/{id}" ++ "/relationships/" ++ m).data =
      '/' :: (q.data ++ '/' ::
        (("{id}" : String).data ++ (("/relationships/" : String).data ++ m.data))) := by
  have e1 : ("/" : String).data = ['/'] := rfl
  have e2 : ("/{id}" : String).data = '/' :: ("{id}" : String).data := rfl
  simp [String.data_append, e1, e2, List.append_assoc]

theorem relPath_ne (p n pj nj : String) (hp : ('/' : Char) ∉ p.data)
    (hpj : ('/' : Char) ∉ pj.data) (hne : p ≠ pj) :
    ("/" ++ p ++ "/{id}" ++ "/relationships/" ++ n) ≠
      "/" ++ pj ++ "/{id}" ++ "/relationships/" ++ nj := by
  intro h
  have hd := congrArg String.data h
  rw [relPath_data_shape, relPath_data_shape] at hd
  simp only [List.cons.injEq, true_and] at hd
  obtain ⟨hseg, _⟩ := segment_eq p.data pj.data _ _ hp hpj hd
  exact hne (String.ext hseg)

theorem ne_of_slash_count {P Q : String} (h : P.data.count '/' ≠ Q.data.count '/') : P ≠ Q :=
  fun e => h (by rw [e])

theorem count_slash_relPath (p n : String) (hp : ('/' : Char) ∉ p.data)
    (hn : ('/' : Char) ∉ n.data) :
    ("/" ++ p ++ "/{id}" ++ "/relationships/" ++ n).data.count '/' = 4 := by
  have c1 : (("/" : String).data).count '/' = 1 := by decide
  have c2 : (("/{id}" : String).data).count '/' = 1 := by decide
  have c3 : (("/relationships/" : String).data).count '/' = 2 := by decide
  simp [String.data_append, List.count_append, c1, c2, c3,
    List.count_eq_zero.mpr hp, List.count_eq_zero.mpr hn]

theorem count_slash_collection (pl : String) (hpl : ('/' : Char) ∉ pl.data) :
    ("/" ++ pl).data.count '/' = 1 := by
  have c1 : (("/" : String).data).count '/' = 1 := by decide
  simp [String.data_append, List.count_append, c1, List.count_eq_zero.mpr hpl]

theorem count_slash_idPath (pl : String) (hpl : ('/' : Char) ∉ pl.data) :
    ("/" ++ pl ++ "/{id}").data.count '/' = 2 := by
  have c1 : (("/" : String).data).count '/' = 1 := by decide
  have c2 : (("/{id}" : String).data).count '/' = 1 := by decide
  simp [String.data_append, List.count_append, c1, c2, List.count_eq_zero.mpr hpl]

theorem getPath_ok_shape (op pl path : String) (h : getPath op pl = Except.ok path) :
    path = "/" ++ pl ∨ path = "/" ++ pl ++ "/{id}" := by
  unfold getPath at h
  split at h
  · left
    injection h with h'
    exact h'.symm
  · split at h
    · right
      injection h with h'
      exact h'.symm
    · exact absurd h (by simp)

theorem buildOperationStep_lookup (resourceName : String) (r : Resource) (pfx : String)
    (paths paths' : List (String × List (String × Val))) (operation P : String)
    (h : buildOperationStep resourceName r pfx paths operation = Except.ok paths')
    (hne1 : P ≠ "/" ++ r.plural) (hne2 : P ≠ "/" ++ r.plural ++ "/{id}") :
    lookupKey paths' P = lookupKey paths P := by
  simp only [buildOperationStep] at h
  cases hm : getOperationMethod operation with
  | error err => rw [hm, except_bind_error] at h; exact absurd h (by simp)
  | ok method =>
    rw [hm, except_bind_ok] at h
    cases hpa : getPath operation r.plural with
    | error err => rw [hpa, except_bind_error] at h; exact absurd h (by simp)
    | ok path =>
      rw [hpa, except_bind_ok] at h
      have hPne : path ≠ P := by
        rcases getPath_ok_shape operation r.plural path hpa with h' | h'
        · rw [h']; exact fun he => hne1 he.symm
        · rw [h']; exact fun he => hne2 he.symm
      injection h with h2
      rw [← h2, lookupKey_setKey_ne _ _ _ _ hPne]

theorem opsFold_lookup (resourceName : String) (r : Resource) (pfx : String)
    (l : List String) :
    ∀ (paths paths' : List (String × List (String × Val))) (P : String),
      List.foldlM (buildOperationStep resourceName r pfx) paths l = Except.ok paths' →
      P ≠ "/" ++ r.plural → P ≠ "/" ++ r.plural ++ "/{id}" →
      lookupKey paths' P = lookupKey paths P := by
  induction l with
  | nil =>
    intro paths paths' P h _ _
    simp only [List.foldlM, pure, Except.pure, Except.ok.injEq] at h
    rw [h]
  | cons a l ih =>
    intro paths paths' P h hne1 hne2
    obtain ⟨paths₁, hstep, hfold⟩ := foldlM_ok_cons _ _ _ _ _ h
    rw [ih paths₁ paths' P hfold hne1 hne2,
      buildOperationStep_lookup resourceName r pfx paths paths₁ a P hstep hne1 hne2]

theorem beStep_paths_lookup (config : Config) (baseUrl : String) (d : OpenApiDoc)
    (e : String × Resource) (d' : OpenApiDoc) (p n : String)
    (h : buildEndpointsResourceStep config baseUrl d e = Except.ok d')
    (hp : ('/' : Char) ∉ p.data) (hn : ('/' : Char) ∉ n.data)
    (hpe : ('/' : Char) ∉ e.2.plural.data) (hnep : p ≠ e.2.plural) :
    lookupKey d'.paths ("/" ++ p ++ "/{id}" ++ "/relationships/" ++ n) =
      lookupKey d.paths ("/" ++ p ++ "/{id}" ++ "/relationships/" ++ n) := by
  have hP4 := count_slash_relPath p n hp hn
  have hne1 : ("/" ++ p ++ "/{id}" ++ "/relationships/" ++ n) ≠ "/" ++ e.2.plural :=
    ne_of_slash_count (by rw [hP4, count_slash_collection e.2.plural hpe]; decide)
  have hne2 : ("/" ++ p ++ "/{id}" ++ "/relationships/" ++ n) ≠ "/" ++ e.2.plural ++ "/{id}" :=
    ne_of_slash_count (by rw [hP4, count_slash_idPath e.2.plural hpe]; decide)
  have hrelne : ∀ e' ∈ e.2.relationships,
      ("/" ++ p ++ "/{id}" ++ "/relationships/" ++ n) ≠
        "/" ++ e.2.plural ++ "/{id}" ++ "/relationships/" ++ e'.1 :=
    fun e' _ => relPath_ne p n e.2.plural e'.1 hp hpe hnep
  by_cases hany : e.2.operations.any (fun operation => isIdOperation operation)
  · simp only [buildEndpointsResourceStep, hany, if_true] at h
    cases hop : List.foldlM (buildOperationStep e.1 e.2 (lodashCapitalize e.1))
        ({ d with components := { d.components with
          parameters := setKey d.components.parameters (idParamName e.1) idPathParameterVal } }).paths
        e.2.operations with
    | error err => rw [hop, except_bind_error] at h; exact absurd h (by simp)
    | ok paths' =>
      rw [hop, except_bind_ok] at h
      obtain ⟨d'', hfold, _, _, _, _, hlook⟩ :=
        relFold_spec config e.1 e.2 (lodashCapitalize e.1) baseUrl e.2.relationships
          { { d with components := { d.components with
              parameters := setKey d.components.parameters (idParamName e.1) idPathParameterVal } }
            with paths := paths' }
      rw [hfold] at h
      have hd : d'' = d' := by injection h
      subst hd
      rw [hlook _ hrelne]
      exact opsFold_lookup e.1 e.2 (lodashCapitalize e.1) e.2.operations _ paths' _ hop hne1 hne2
  · simp only [buildEndpointsResourceStep, hany, if_false, Bool.false_eq_true] at h
    cases hop : List.foldlM (buildOperationStep e.1 e.2 (lodashCapitalize e.1))
        d.paths e.2.operations with
    | error err => rw [hop, except_bind_error] at h; exact absurd h (by simp)
    | ok paths' =>
      rw [hop, except_bind_ok] at h
      obtain ⟨d'', hfold, _, _, _, _, hlook⟩ :=
        relFold_spec config e.1 e.2 (lodashCapitalize e.1) baseUrl e.2.relationships
          { d with paths := paths' }
      rw [hfold] at h
      have hd : d'' = d' := by injection h
      subst hd
      rw [hlook _ hrelne]
      exact opsFold_lookup e.1 e.2 (lodashCapitalize e.1) e.2.operations _ paths' _ hop hne1 hne2

theorem beFold_paths_lookup (config : Config) (baseUrl : String)
    (l : List (String × Resource)) :
    ∀ (d d' : OpenApiDoc) (p n : String),
      l.foldlM (buildEndpointsResourceStep config baseUrl) d = Except.ok d' →
      ('/' : Char) ∉ p.data → ('/' : Char) ∉ n.data →
      (∀ e ∈ l, ('/' : Char) ∉ e.2.plural.data ∧ p ≠ e.2.plural) →
      lookupKey d'.paths ("/" ++ p ++ "/{id}" ++ "/relationships/" ++ n) =
        lookupKey d.paths ("/" ++ p ++ "/{id}" ++ "/relationships/" ++ n) := by
  induction l with
  | nil =>
    intro d d' p n h _ _ _
    have hd : d = d' := by
      simp only [List.foldlM, pure, Except.pure, Except.ok.injEq] at h
      exact h
    rw [hd]
  | cons e l ih =>
    intro d d' p n h hp hn hl
    obtain ⟨d₁, hstep, hfold⟩ := foldlM_ok_cons _ _ _ _ _ h
    rw [ih d₁ d' p n hfold hp hn (fun e' he' => hl e' (List.mem_cons_of_mem e he')),
      beStep_paths_lookup config baseUrl d e d₁ p n hstep hp hn
        (hl e (List.mem_cons_self e l)).1 (hl e (List.mem_cons_self e l)).2]


/-- C3 (amended): for every resource and every declared relationship the
generator synthesizes the path `/<plural>/{id}/relationships/<name>` — with
the literal `{id}` placeholder — whose method set is exactly `{get, patch}`
for toOne and `{get, patch, post, delete}` for toMany, provided no other
resource writes the same path string (guaranteed when plurals and
relationship names are slash-free, plurals are pairwise distinct, and a
resource's relationship names are unique); for the `pet`/`siblings` scenario
the path is `/pets/{id}/relationships/siblings` with all four methods, and
`components.schemas` gains `PetPetRelationship` and
`PetPetRelationshipSetResult`, while `PetPetRelationshipSet` is the key of
the shared response and request body, not of a schema. -/
theorem claim3_relationship_endpoints :
    (∀ (config : Config) (rn : String) (r : Resource)
       (relName : String) (rel : Relationship) (doc : OpenApiDoc),
       (rn, r) ∈ config.resources →
       (∀ e ∈ config.resources, ('/' : Char) ∉ e.2.plural.data) →
       (config.resources.map (fun e => e.2.plural)).Nodup →
       ('/' : Char) ∉ relName.data →
       (relName, rel) ∈ r.relationships →
       (keysOf r.relationships).Nodup →
       generate config = Except.ok doc →
       (lookupKey doc.paths ("/" ++ r.plural ++ "/{id}" ++ "/relationships/" ++ relName)).map
           keysOf =
         some (relationshipMethods (decide (rel.relationshipType = "toMany")))) ∧
    (generate cfgPetRel).map (fun doc =>
      ((lookupKey doc.paths ("/pets/{id}/relationships/siblings")).map keysOf ==
         some ["get", "patch", "post", "delete"]) &&
      (keysOf doc.components.schemas).contains ("PetPetRelationship") &&
      (keysOf doc.components.schemas).contains ("PetPetRelationshipSetResult") &&
      (keysOf doc.components.responses).contains ("PetPetRelationshipSet") &&
      (keysOf doc.components.requestBodies).contains ("PetPetRelationshipSet")) =
      Except.ok true := by
  constructor
  · intro config rn r relName rel doc hmem hsf hplnd hnsf hrmem hrnd hgen
    obtain ⟨d₁, _, hbe⟩ := generate_ok_parts config doc hgen
    unfold buildEndpoints at hbe
    obtain ⟨l₁, l₂, hres⟩ := List.append_of_mem hmem
    rw [hres] at hbe
    obtain ⟨dmid, _, hf₂⟩ := foldlM_ok_append _ _ _ _ _ hbe
    obtain ⟨d₂, hstep, hf₃⟩ := foldlM_ok_cons _ _ _ _ _ hf₂
    obtain ⟨dbase, hfold⟩ :=
      beStep_relFold config (serverUrl (init config)) dmid (rn, r) d₂ hstep
    have hbfact := relFold_result config rn r (lodashCapitalize rn) (serverUrl (init config))
      r.relationships relName rel hrmem hrnd dbase d₂ hfold
    have hpl_r : ('/' : Char) ∉ r.plural.data := hsf (rn, r) hmem
    have hlater : ∀ e ∈ l₂, ('/' : Char) ∉ e.2.plural.data ∧ r.plural ≠ e.2.plural := by
      intro e he
      have hein : e ∈ config.resources := by
        rw [hres]
        exact List.mem_append_right l₁ (List.mem_cons_of_mem (rn, r) he)
      refine ⟨hsf e hein, ?_⟩
      have hnd' := hplnd
      rw [hres, List.map_append, List.map_cons] at hnd'
      have h2 := (List.nodup_append.mp hnd').2.1
      rw [List.nodup_cons] at h2
      exact fun heq => h2.1 (heq ▸ List.mem_map_of_mem (fun e => e.2.plural) he)
    have hpres := beFold_paths_lookup config (serverUrl (init config)) l₂ d₂ doc
      r.plural relName hf₃ hpl_r hnsf hlater
    rw [hpres]
    exact hbfact
  · rfl

/-- C3 counterexample: the claim's scenario path `/pets/{petId}/relationships/siblings`
does not exist in the generated document (the placeholder is the literal
`{id}`), and `PetPetRelationshipSet` is not a key of `components.schemas`. -/
theorem claim3_counterexample :
    (generate cfgPetRel).map (fun doc =>
      (keysOf doc.paths).contains ("/pets/{petId}/relationships/siblings") ||
      (keysOf doc.components.schemas).contains ("PetPetRelationshipSet")) =
      Except.ok false := by
  rfl

/-- C3 witness: the general statement applied to the `pet`/`siblings`
scenario. -/
theorem claim3_witness :
    ("pet", petRelResource) ∈ cfgPetRel.resources ∧
    (∀ e ∈ cfgPetRel.resources, ('/' : Char) ∉ e.2.plural.data) ∧
    (cfgPetRel.resources.map (fun e => e.2.plural)).Nodup ∧
    ('/' : Char) ∉ ("siblings" : String).data ∧
    ("siblings", ({ relationshipType := "toMany", type' := "pet" } : Relationship)) ∈
      petRelResource.relationships ∧
    (keysOf petRelResource.relationships).Nodup ∧
    (lookupKey docPetRel.paths
        ("/" ++ petRelResource.plural ++ "/{id}" ++ "/relationships/" ++ "siblings")).map
        keysOf =
      some (relationshipMethods
        (decide (({ relationshipType := "toMany", type' := "pet" } : Relationship).relationshipType =
          "toMany"))) := by
  refine ⟨List.mem_singleton.mpr rfl, ?_, by decide, by decide,
    List.mem_singleton.mpr rfl, by decide, ?_⟩
  · intro e he
    rw [List.mem_singleton.mp he]
    decide
  · exact claim3_relationship_endpoints.1 cfgPetRel "pet" petRelResource "siblings"
      ({ relationshipType := "toMany", type' := "pet" }) docPetRel
      (List.mem_singleton.mpr rfl)
      (fun e he => by rw [List.mem_singleton.mp he]; decide)
      (by decide) (by decide) (List.mem_singleton.mpr rfl) (by decide) (by rfl)

/-- C7: pagination conditionality — if no resource paginates, the generated
document has no `pageNumber`/`pageSize` parameter and no `Meta`/
`PaginationLinks` schema; if some resource paginates, each is present exactly
once. -/
theorem claim7_pagination (config : Config) (doc : OpenApiDoc)
    (h : generate config = Except.ok doc) :
    (config.resources.any (fun p => p.2.paginate) = false →
      "pageNumber" ∉ keysOf doc.components.parameters ∧
      "pageSize" ∉ keysOf doc.components.parameters ∧
      "Meta" ∉ keysOf doc.components.schemas ∧
      "PaginationLinks" ∉ keysOf doc.components.schemas) ∧
    (config.resources.any (fun p => p.2.paginate) = true →
      (keysOf doc.components.parameters).count ("pageNumber") = 1 ∧
      (keysOf doc.components.parameters).count ("pageSize") = 1 ∧
      (keysOf doc.components.schemas).count ("Meta") = 1 ∧
      (keysOf doc.components.schemas).count ("PaginationLinks") = 1) := by
  obtain ⟨d₁, hbr, hbe⟩ := generate_ok_parts config doc h
  obtain ⟨d₁', hbr', _, _, hparams₁, _, _, _, _, hcount₁⟩ :=
    buildResources_spec config (init config)
  rw [hbr'] at hbr
  have hd : d₁' = d₁ := by injection hbr
  subst hd
  obtain ⟨hp₂, _, hc₂⟩ :=
    buildEndpoints_frame config (serverUrl (init config)) config.resources d₁' doc hbe
  have hpn : (keysOf doc.components.parameters).count ("pageNumber") =
      (keysOf (init config).components.parameters).count ("pageNumber") := by
    rw [hp₂ ("pageNumber") (by decide), hparams₁]
  have hps : (keysOf doc.components.parameters).count ("pageSize") =
      (keysOf (init config).components.parameters).count ("pageSize") := by
    rw [hp₂ ("pageSize") (by decide), hparams₁]
  have hme : (keysOf doc.components.schemas).count ("Meta") =
      (keysOf (init config).components.schemas).count ("Meta") := by
    rw [hc₂ ("Meta") (by decide) (by decide), hcount₁ ("Meta") (by decide) (by decide) (by decide)]
  have hpl : (keysOf doc.components.schemas).count ("PaginationLinks") =
      (keysOf (init config).components.schemas).count ("PaginationLinks") := by
    rw [hc₂ ("PaginationLinks") (by decide) (by decide),
      hcount₁ ("PaginationLinks") (by decide) (by decide) (by decide)]
  constructor
  · intro hfalse
    have hep : (init config).components.parameters = [] := by
      simp [init, hfalse]
    have hes : (init config).components.schemas =
        ("SelfLink", selfLinkSchema) ::
          [("ErrorObject", errorObjectSchema), ("ErrorResult", errorResultSchema)] := by
      simp [init, hfalse]
    refine ⟨?_, ?_, ?_, ?_⟩
    · rw [← List.count_eq_zero, hpn, hep]; rfl
    · rw [← List.count_eq_zero, hps, hep]; rfl
    · rw [← List.count_eq_zero, hme, hes]; rfl
    · rw [← List.count_eq_zero, hpl, hes]; rfl
  · intro htrue
    have hep : (init config).components.parameters = paginationParameters := by
      simp [init, htrue]
    have hes : (init config).components.schemas =
        ("SelfLink", selfLinkSchema) :: (paginationSchemas ++
          [("ErrorObject", errorObjectSchema), ("ErrorResult", errorResultSchema)]) := by
      simp [init, htrue]
    refine ⟨?_, ?_, ?_, ?_⟩
    · rw [hpn, hep]; rfl
    · rw [hps, hep]; rfl
    · rw [hme, hes]; rfl
    · rw [hpl, hes]; rfl

/-- C7 witness: the paginated configuration has each pagination entry exactly
once. -/
theorem claim7_witness :
    generate cfgPetPaginated = Except.ok docPetPaginated ∧
    cfgPetPaginated.resources.any (fun p => p.2.paginate) = true ∧
    (keysOf docPetPaginated.components.parameters).count ("pageNumber") = 1 ∧
    (keysOf docPetPaginated.components.schemas).count ("Meta") = 1 := by
  have h := (claim7_pagination cfgPetPaginated docPetPaginated (by rfl)).2 (by decide)
  exact ⟨by rfl, by decide, h.1, h.2.2.1⟩

/-- C10 (amended): every configured resource contributes its Resource,
Result, and SetResult schemas unconditionally, even with an empty operations
list; a resource with no operations and no relationships contributes no path
items (with relationships it still contributes the relationship sub-paths). -/
theorem claim10_unconditional_schemas :
    (∀ (config : Config) (doc : OpenApiDoc) (rn : String) (r : Resource),
      generate config = Except.ok doc → (rn, r) ∈ config.resources →
      (lodashCapitalize rn ++ "Resource") ∈ keysOf doc.components.schemas ∧
      (lodashCapitalize rn ++ "Result") ∈ keysOf doc.components.schemas ∧
      (lodashCapitalize rn ++ "SetResult") ∈ keysOf doc.components.schemas) ∧
    (∀ (config : Config) (doc : OpenApiDoc) (rn : String) (r : Resource),
      generate config = Except.ok doc → config.resources = [(rn, r)] →
      r.operations = [] → r.relationships = [] → doc.paths = []) := by
  constructor
  · intro config doc rn r hgen hmem
    obtain ⟨d₁, hbr, hbe⟩ := generate_ok_parts config doc hgen
    obtain ⟨d₁', hbr', _, _, _, _, _, _, hthree, _⟩ := buildResources_spec config (init config)
    rw [hbr'] at hbr
    have hd : d₁' = d₁ := by injection hbr
    subst hd
    obtain ⟨_, hmono, _⟩ :=
      buildEndpoints_frame config (serverUrl (init config)) config.resources d₁' doc hbe
    obtain ⟨h1, h2, h3⟩ := hthree (rn, r) hmem
    exact ⟨hmono _ h1, hmono _ h2, hmono _ h3⟩
  · intro config doc rn r hgen hres hops hrels
    obtain ⟨d₁, hbr, hbe⟩ := generate_ok_parts config doc hgen
    obtain ⟨d₁', hbr', hpaths₁, _, _, _, _, _, _, _⟩ := buildResources_spec config (init config)
    rw [hbr'] at hbr
    have hd : d₁' = d₁ := by injection hbr
    subst hd
    unfold buildEndpoints at hbe
    rw [hres] at hbe
    obtain ⟨d₂, hstep, hf⟩ := foldlM_ok_cons _ _ _ _ _ hbe
    have hdoc : d₂ = doc := by
      simp only [List.foldlM, pure, Except.pure, Except.ok.injEq] at hf
      exact hf
    subst hdoc
    have hstep' : buildEndpointsResourceStep config (serverUrl (init config)) d₁' (rn, r) =
        Except.ok d₁' := by
      simp [buildEndpointsResourceStep, hops, hrels, List.foldlM, pure, Except.pure,
        except_bind_ok]
    rw [hstep'] at hstep
    have : d₁' = d₂ := by injection hstep
    rw [← this, hpaths₁]
    rfl

/-- C10 counterexample: the resource `pet` of `cfgPetRel` declares no
operations, yet the generated document contains a path item (the relationship
sub-path), so "no declared operations implies no path items" fails. -/
theorem claim10_counterexample :
    (generate cfgPetRel).map (fun doc => keysOf doc.paths) =
      Except.ok ["/pets/{id}/relationships/siblings"] ∧
    (["/pets/{id}/relationships/siblings"] : List String) ≠ [] := by
  exact ⟨rfl, by decide⟩

/-- C10 witness: the three schemas of the operation-less `pet` resource. -/
theorem claim10_witness :
    generate cfgPetRel = Except.ok docPetRel ∧
    ("pet", petRelResource) ∈ cfgPetRel.resources ∧
    (lodashCapitalize "pet" ++ "Resource") ∈ keysOf docPetRel.components.schemas ∧
    (lodashCapitalize "pet" ++ "Result") ∈ keysOf docPetRel.components.schemas ∧
    (lodashCapitalize "pet" ++ "SetResult") ∈ keysOf docPetRel.components.schemas := by
  have h := claim10_unconditional_schemas.1 cfgPetRel docPetRel "pet" petRelResource
    (by rfl) (List.mem_singleton.mpr rfl)
  exact ⟨by rfl, List.mem_singleton.mpr rfl, h.1, h.2.1, h.2.2⟩
